import Mathlib

/-
Verification development for rf_docs_server.py (Robot Framework documentation
MCP server).  The Python source is shallowly embedded: pure helper functions
become Lean functions over `List Char` / `String`, the on-disk cache and the
two persisted index artifacts become an explicit state record, and the HTTP
layer becomes a function parameter.  Machine integers do not occur (Python
integers are unbounded), so counts are `Nat` and the brace-depth counter is
`Int` exactly as in the source.
-/

namespace RF

set_option maxRecDepth 100000

/-! ## Python string primitives used by the server -/

/-- Whitespace characters recognised by Python's `str.strip()` and by the
regex class `\s` (ASCII range, which is all the server's inputs use). -/
def pyWs (c : Char) : Bool :=
  c = ' ' || c = '\t' || c = '\n' || c = '\r' || c = '\x0b' || c = '\x0c'

/-- Python `str.strip()` on a character list. -/
def pyStrip (s : List Char) : List Char :=
  ((s.dropWhile pyWs).reverse.dropWhile pyWs).reverse

/-- Python `str.lower()` (ASCII case folding, which covers every string the
server compares). -/
def pyLower (s : List Char) : List Char :=
  s.map Char.toLower

/-- Python `str.replace(old, new)` for a one-character `old`, the only form
the server uses (`"_"`, `"-"`, `" "`). -/
def pyReplaceChar (old : Char) (new : List Char) (s : List Char) : List Char :=
  s.foldr (fun c r => (if c = old then new else [c]) ++ r) []

/-- Fuel-driven worker for Python `str.count`: counts non-overlapping
occurrences left to right, skipping past each match. -/
def countSubAux (p : List Char) : Nat → List Char → Nat
  | 0, _ => 0
  | _, [] => 0
  | fuel + 1, c :: tl =>
    if p.isPrefixOf (c :: tl) then 1 + countSubAux p fuel ((c :: tl).drop p.length)
    else countSubAux p fuel tl

/-- Python `str.count(sub)`: non-overlapping occurrence count; an empty
pattern counts `len(s) + 1` occurrences, exactly as in CPython. -/
def countSub (s p : List Char) : Nat :=
  if p = [] then s.length + 1 else countSubAux p s.length s

/-! ## JSON values

Model of the JSON data decoded by `json.loads` and serialised by
`json.dumps`.  Numbers are modelled as integers (every number the server's
own artifacts contain is an integer). -/

mutual
inductive Json where
  | null : Json
  | bool (b : Bool) : Json
  | num (n : Int) : Json
  | str (s : List Char) : Json
  | arr (a : JsonArr) : Json
  | obj (o : JsonObj) : Json
deriving DecidableEq

inductive JsonArr where
  | nil : JsonArr
  | cons (hd : Json) (tl : JsonArr) : JsonArr
deriving DecidableEq

inductive JsonObj where
  | nil : JsonObj
  | cons (k : List Char) (v : Json) (tl : JsonObj) : JsonObj
deriving DecidableEq
end

/-- Python truthiness of a decoded JSON value (`if not name: ...`). -/
def jsonTruthy : Json → Bool
  | .null => false
  | .bool b => b
  | .num n => n ≠ 0
  | .str s => s ≠ []
  | .arr .nil => false
  | .arr (.cons _ _) => true
  | .obj .nil => false
  | .obj (.cons _ _ _) => true

/-- First-match lookup in a decoded JSON object (decoded objects have unique
keys, so this is Python `dict.__getitem__`). -/
def jobjLookup (k : List Char) : JsonObj → Option Json
  | .nil => none
  | .cons k2 v tl => if k2 = k then some v else jobjLookup k tl

/-- Python `dict.get(key, default)` on a decoded JSON object. -/
def jgetD (o : JsonObj) (k : List Char) (d : Json) : Json :=
  match jobjLookup k o with
  | some v => v
  | none => d

/-! ## JSON serialisation

Serialiser for the JSON model; inside string literals only `"` and `\` are
escaped, so serialised strings may contain literal brace characters.  This is
the shape of the `libdoc = {...}` literal the scanner of
`_parse_library_keywords` must walk. -/

/-- Escape one character of a JSON string body. -/
def escChar (c : Char) : List Char :=
  if c = '\"' ∨ c = '\\' then ['\\', c] else [c]

/-- Escape a whole JSON string body. -/
def escapeStr (s : List Char) : List Char :=
  s.foldr (fun c r => escChar c ++ r) []

/-- Decimal digit character. -/
def digitChar : Nat → Char
  | 0 => '0' | 1 => '1' | 2 => '2' | 3 => '3' | 4 => '4'
  | 5 => '5' | 6 => '6' | 7 => '7' | 8 => '8' | _ => '9'

/-- Fuel-driven decimal rendering of a natural number. -/
def renderNatAux : Nat → Nat → List Char
  | 0, _ => []
  | fuel + 1, n =>
    if n < 10 then [digitChar n]
    else renderNatAux fuel (n / 10) ++ [digitChar (n % 10)]

/-- Decimal rendering of a natural number. -/
def renderNat (n : Nat) : List Char :=
  renderNatAux (n + 1) n

/-- Decimal rendering of an integer. -/
def renderInt (i : Int) : List Char :=
  if i < 0 then '-' :: renderNat i.natAbs else renderNat i.natAbs

mutual
/-- Serialise a JSON value (minimal whitespace-free form). -/
def renderJson : Json → List Char
  | .null => ("null").data
  | .bool true => ("true").data
  | .bool false => ("false").data
  | .num n => renderInt n
  | .str s => '\"' :: (escapeStr s ++ ['\"'])
  | .arr a => '[' :: (renderArrBody a ++ [']'])
  | .obj o => '\x7b' :: (renderObjBody o ++ ['\x7d'])

/-- Serialise the comma-separated elements of a JSON array. -/
def renderArrBody : JsonArr → List Char
  | .nil => []
  | .cons v .nil => renderJson v
  | .cons v (.cons w tl) => renderJson v ++ (',' :: renderArrBody (.cons w tl))

/-- Serialise the comma-separated `"key":value` fields of a JSON object. -/
def renderObjBody : JsonObj → List Char
  | .nil => []
  | .cons k v .nil => renderField k v
  | .cons k v (.cons k2 w tl) => renderField k v ++ (',' :: renderObjBody (.cons k2 w tl))

/-- Serialise one `"key":value` field. -/
def renderField (k : List Char) (v : Json) : List Char :=
  '\"' :: (escapeStr k ++ ('\"' :: (':' :: renderJson v)))
end

/-! ## The embedded-JSON extractor of `_parse_library_keywords`

The Python loop keeps a brace depth, an in-string flag and an escape-pending
flag, character by character from the opening brace of `libdoc = {`. -/

/-- Scanner state of the brace-matching loop (`depth`, `in_string`,
`escape`). -/
structure ScanState where
  depth : Int
  inString : Bool
  escape : Bool
deriving DecidableEq

/-- One-for-one embedding of the character loop of
`_parse_library_keywords` (source lines 213-236): given the remaining text
and the current position, return `some endPos` (the exclusive end of the
JSON span, measured from the loop's starting point) when the depth counter
returns to zero on a closing brace, and `none` when the text is exhausted
first (the loop's `else:` clause). -/
def scanLoop : ScanState → List Char → Nat → Option Nat
  | _, [], _ => none
  | st, c :: cs, pos =>
    if st.escape then scanLoop { st with escape := false } cs (pos + 1)
    else if c = '\\' then scanLoop { st with escape := true } cs (pos + 1)
    else if c = '\"' then scanLoop { st with inString := !st.inString } cs (pos + 1)
    else if st.inString then scanLoop st cs (pos + 1)
    else if c = '\x7b' then scanLoop { st with depth := st.depth + 1 } cs (pos + 1)
    else if c = '\x7d' then
      if st.depth - 1 = 0 then some (pos + 1)
      else scanLoop { st with depth := st.depth - 1 } cs (pos + 1)
    else scanLoop st cs (pos + 1)

/-- The word part of the anchor regex `libdoc\s*=\s*\{`. -/
def anchorWord : List Char := ['l', 'i', 'b', 'd', 'o', 'c']

/-- Length of the leading whitespace run (the greedy `\s*`). -/
def wsLen (l : List Char) : Nat :=
  (l.takeWhile pyWs).length

/-- Length of a match of the regex `libdoc\s*=\s*\{` at the head of `l`,
if any: the literal word, a greedy whitespace run, `=`, a greedy whitespace
run, `{`. -/
def matchAnchorLen (l : List Char) : Option Nat :=
  if anchorWord.isPrefixOf l then
    let l1 := l.drop 6
    let k1 := wsLen l1
    match l1.drop k1 with
    | '=' :: l2 =>
      let k2 := wsLen l2
      match l2.drop k2 with
      | '\x7b' :: _ => some (6 + k1 + 1 + k2 + 1)
      | _ => none
    | _ => none
  else none

/-- Leftmost match of the anchor regex (`re.search`): start index and match
length of the first position where `matchAnchorLen` succeeds. -/
def findAnchorFrom : List Char → Nat → Option (Nat × Nat)
  | [], _ => none
  | c :: tl, i =>
    match matchAnchorLen (c :: tl) with
    | some k => some (i, k)
    | none => findAnchorFrom tl (i + 1)

/-- Outcome of the embedded-JSON span extraction. -/
inductive ExtractResult where
  | noAnchor : ExtractResult
  | unterminated : ExtractResult
  | span (s : List Char) : ExtractResult
deriving DecidableEq

/-- Embedding of the span-extraction half of `_parse_library_keywords`:
locate `libdoc\s*=\s*\{`, set `start_pos` to the opening brace
(`start_match.end() - 1`), run the brace/string/escape scan, and return
`html_content[start_pos:end_pos]`. -/
def extractLibdocSpan (html : List Char) : ExtractResult :=
  match findAnchorFrom html 0 with
  | none => .noAnchor
  | some (s, k) =>
    let startPos := s + k - 1
    match scanLoop ⟨0, false, false⟩ (html.drop startPos) 0 with
    | none => .unterminated
    | some endPos => .span ((html.drop startPos).take endPos)

/-! ## A model of `json.loads`

`_parse_library_keywords` hands the extracted span to `json.loads`.  The
decoder below models Python's JSON decoder on the fragment the server's
data uses: `null`, `true`, `false`, integer numerals, strings with the
standard one-character escapes, arrays and objects (later duplicate keys
overwrite earlier ones, keeping the first key's position, as CPython's
dict building does).  Non-integer numerals and `\u` escapes are outside
the model and decode to `none`. -/

/-- JSON inter-token whitespace. -/
def jsonWs (c : Char) : Bool :=
  c = ' ' || c = '\t' || c = '\n' || c = '\r'

/-- Skip JSON whitespace. -/
def skipWs (l : List Char) : List Char :=
  l.dropWhile jsonWs

/-- Decode one string-escape character. -/
def unescChar (e : Char) : Option Char :=
  if e = '\"' then some '\"'
  else if e = '\\' then some '\\'
  else if e = '/' then some '/'
  else if e = 'n' then some '\n'
  else if e = 't' then some '\t'
  else if e = 'r' then some '\r'
  else if e = 'b' then some '\x08'
  else if e = 'f' then some '\x0c'
  else none

/-- Parse a JSON string body after the opening quote; returns the decoded
content and the text after the closing quote. -/
def parseStrBody : Nat → List Char → Option (List Char × List Char)
  | 0, _ => none
  | _, [] => none
  | fuel + 1, c :: tl =>
    if c = '\"' then some ([], tl)
    else if c = '\\' then
      match tl with
      | [] => none
      | e :: tl2 =>
        match unescChar e with
        | none => none
        | some ch =>
          match parseStrBody fuel tl2 with
          | none => none
          | some (s, rest) => some (ch :: s, rest)
    else
      match parseStrBody fuel tl with
      | none => none
      | some (s, rest) => some (c :: s, rest)

/-- Numeric value of a digit run. -/
def natOfDigits (ds : List Char) : Nat :=
  ds.foldl (fun a c => a * 10 + (c.toNat - 48)) 0

/-- Insert a key into a decoded object the way CPython dict assignment
does: an existing key keeps its position and gets the new value, a new key
is appended. -/
def jobjInsert (k : List Char) (v : Json) : JsonObj → JsonObj
  | .nil => .cons k v .nil
  | .cons k2 v2 tl => if k2 = k then .cons k2 v tl else .cons k2 v2 (jobjInsert k v tl)

/-- Fold a raw key/value pair sequence into a decoded object, later
duplicate keys overwriting earlier ones. -/
def jobjFoldAux : JsonObj → JsonObj → JsonObj
  | acc, .nil => acc
  | acc, .cons k v tl => jobjFoldAux (jobjInsert k v acc) tl

/-- Build the decoded object from the parsed pair sequence. -/
def jobjFold (o : JsonObj) : JsonObj :=
  jobjFoldAux .nil o

/-- Combined result of the three parsing modes. -/
inductive JOut where
  | v (j : Json) : JOut
  | a (x : JsonArr) : JOut
  | o (x : JsonObj) : JOut

/-- Fuel-driven JSON parser.  `mode` 0 parses one value, mode 1 parses
array items up to the closing bracket, mode 2 parses object items up to
the closing brace. -/
def parseF : Nat → Nat → List Char → Option (JOut × List Char)
  | 0, _, _ => none
  | fuel + 1, 0, l0 =>
    let l := skipWs l0
    if ['n', 'u', 'l', 'l'].isPrefixOf l then some (.v .null, l.drop 4)
    else if ['t', 'r', 'u', 'e'].isPrefixOf l then some (.v (.bool true), l.drop 4)
    else if ['f', 'a', 'l', 's', 'e'].isPrefixOf l then some (.v (.bool false), l.drop 5)
    else
      match l with
      | [] => none
      | c :: tl =>
        if c = '\"' then
          match parseStrBody fuel tl with
          | none => none
          | some (s, rest) => some (.v (.str s), rest)
        else if c = '-' then
          let ds := tl.takeWhile Char.isDigit
          if ds = [] then none
          else
            match tl.drop ds.length with
            | c2 :: _ =>
              if c2 = '.' ∨ c2 = 'e' ∨ c2 = 'E' then none
              else some (.v (.num (-(natOfDigits ds : Int))), tl.drop ds.length)
            | [] => some (.v (.num (-(natOfDigits ds : Int))), [])
        else if c.isDigit then
          let ds := l.takeWhile Char.isDigit
          match l.drop ds.length with
          | c2 :: _ =>
            if c2 = '.' ∨ c2 = 'e' ∨ c2 = 'E' then none
            else some (.v (.num (natOfDigits ds : Int)), l.drop ds.length)
          | [] => some (.v (.num (natOfDigits ds : Int)), [])
        else if c = '[' then
          match parseF fuel 1 tl with
          | some (.a x, rest) => some (.v (.arr x), rest)
          | _ => none
        else if c = '\x7b' then
          match parseF fuel 2 tl with
          | some (.o x, rest) => some (.v (.obj (jobjFold x)), rest)
          | _ => none
        else none
  | fuel + 1, 1, l0 =>
    let l := skipWs l0
    match l with
    | ']' :: rest => some (.a .nil, rest)
    | _ =>
      match parseF fuel 0 l with
      | some (.v j, rest) =>
        (match skipWs rest with
         | ',' :: rest2 =>
           (match parseF fuel 1 rest2 with
            | some (.a x, rest3) => some (.a (.cons j x), rest3)
            | _ => none)
         | ']' :: rest2 => some (.a (.cons j .nil), rest2)
         | _ => none)
      | _ => none
  | fuel + 1, 2, l0 =>
    let l := skipWs l0
    match l with
    | '\x7d' :: rest => some (.o .nil, rest)
    | '\"' :: tl =>
      (match parseStrBody fuel tl with
       | none => none
       | some (k, rest) =>
         match skipWs rest with
         | ':' :: rest2 =>
           (match parseF fuel 0 rest2 with
            | some (.v j, rest3) =>
              (match skipWs rest3 with
               | ',' :: rest4 =>
                 (match parseF fuel 2 rest4 with
                  | some (.o x, rest5) => some (.o (.cons k j x), rest5)
                  | _ => none)
               | '\x7d' :: rest4 => some (.o (.cons k j .nil), rest4)
               | _ => none)
            | _ => none)
         | _ => none)
    | _ => none
  | _ + 1, _ + 3, _ => none

/-- Model of `json.loads`: parse one value and require only whitespace
after it. -/
def pyJsonLoads (l : List Char) : Option Json :=
  match parseF (2 * l.length + 4) 0 l with
  | some (.v j, rest) => if skipWs rest = [] then some j else none
  | _ => none

/-! ## The keyword normalizer of `_parse_library_keywords`

After decoding, the loop over `libdoc_data.get("keywords", [])` turns each
record into a canonical keyword dictionary entry.  Records whose `name` is
missing or falsy are skipped; a Python-level type error anywhere in the
loop (a truthy non-string name, a non-string `repr`, a non-string
`shortdoc`, a non-object record) escapes to the enclosing `except` and
fails the whole library parse, modelled as `Except.error`. -/

/-- Python association-list lookup (dict access by key). -/
def alookup {β : Type} (k : String) : List (String × β) → Option β
  | [] => none
  | (k2, v) :: tl => if k2 = k then some v else alookup k tl

/-- Python dict assignment `d[k] = v` on an association list: an existing
key keeps its position and is given the new value, a new key is appended. -/
def dinsert {β : Type} (k : String) (v : β) : List (String × β) → List (String × β)
  | [] => [(k, v)]
  | (k2, v2) :: tl => if k2 = k then (k2, v) :: tl else (k2, v2) :: dinsert k v tl

/-- Decoded array to list of values. -/
def jarrToList : JsonArr → List Json
  | .nil => []
  | .cons v tl => v :: jarrToList tl

/-- Join string pieces with a separator (`", ".join(args_parts)`). -/
def joinSep (sep : List Char) : List (List Char) → List Char
  | [] => []
  | [x] => x
  | x :: y :: tl => x ++ sep ++ joinSep sep (y :: tl)

/-- Remove everything up to and including the first `>` (the tail of a
matched `<[^>]+>` span). -/
def dropToGt : List Char → Option (List Char)
  | [] => none
  | c :: tl => if c = '>' then some tl else dropToGt tl

/-- Model of `re.sub(r'<[^>]+>', '', doc)`: delete every span that starts
at a `<`, holds at least one non-`>` character, and ends at the next `>`. -/
def stripTagsAux : Nat → List Char → List Char
  | 0, s => s
  | _, [] => []
  | fuel + 1, c :: tl =>
    if c = '<' then
      match tl with
      | [] => ['<']
      | c2 :: tl2 =>
        if c2 = '>' then c :: stripTagsAux fuel tl
        else
          match dropToGt tl2 with
          | some rest => stripTagsAux fuel rest
          | none => c :: stripTagsAux fuel tl
    else c :: stripTagsAux fuel tl

/-- HTML-tag removal at full fuel. -/
def stripTags (s : List Char) : List Char :=
  stripTagsAux s.length s

/-- The backtick character, kept out of the source text. -/
def tick : Char := Char.ofNat 96

/-- Try to match the rest of a double-backtick literal at `l` (which
follows the opening pair): a non-empty run of non-backtick characters and
a closing pair.  Returns the inner text and the remainder. -/
def tickMatch (l : List Char) : Option (List Char × List Char) :=
  let run := l.takeWhile (fun c => c ≠ tick)
  if run = [] then none
  else
    match l.drop run.length with
    | t1 :: t2 :: rest => if t1 = tick ∧ t2 = tick then some (run, rest) else none
    | _ => none

/-- Model of ``re.sub(r'``([^`]+)``', r'\1', doc)``: collapse each
double-backtick-delimited span to its inner text. -/
def collapseTicksAux : Nat → List Char → List Char
  | 0, s => s
  | _, [] => []
  | fuel + 1, c :: tl =>
    if c = tick then
      match tl with
      | c2 :: tl2 =>
        if c2 = tick then
          match tickMatch tl2 with
          | some (inner, rest) => inner ++ collapseTicksAux fuel rest
          | none => c :: collapseTicksAux fuel tl
        else c :: collapseTicksAux fuel tl
      | [] => [c]
    else c :: collapseTicksAux fuel tl

/-- Double-backtick collapse at full fuel. -/
def collapseTicks (s : List Char) : List Char :=
  collapseTicksAux s.length s

/-- One canonical keyword record (the value stored in the keywords
mapping). -/
structure KeywordRecord where
  name : String
  id : String
  args : String
  doc : String
  library : String
  source : Json
  lineno : Json
deriving DecidableEq

/-- Collect the `repr` strings of a record's `args` list in source order,
omitting falsy entries; a non-object entry or a truthy non-string `repr`
is a Python type error. -/
def argsParts : JsonArr → Except String (List (List Char))
  | .nil => .ok []
  | .cons (.obj ao) tl =>
    let reprJ := jgetD ao (("repr").data) (.str [])
    match argsParts tl with
    | .error e => .error e
    | .ok rest =>
      if jsonTruthy reprJ then
        match reprJ with
        | .str r => .ok (r :: rest)
        | _ => .error ("Parsing error: sequence item: expected str instance")
    else .ok rest
  | .cons _ _ => .error ("Parsing error: arg record is not an object")

/-- Process one decoded keyword record: `.ok none` means the record is
skipped (missing/falsy name), `.ok (some (name, rec))` is the dictionary
assignment performed for it, `.error` is a Python-level type error that
aborts the library parse. -/
def buildKeyword (library_name : String) (kw : Json) : Except String (Option (String × KeywordRecord)) :=
  match kw with
  | .obj o =>
    let nameJ := jgetD o (("name").data) (.str [])
    if jsonTruthy nameJ then
      match nameJ with
      | .str nameL =>
        match jgetD o (("args").data) (.arr .nil) with
        | .arr items =>
          (match argsParts items with
           | .error e => .error e
           | .ok parts =>
             match jgetD o (("shortdoc").data) (.str []) with
             | .str docL =>
               .ok (some (String.mk nameL,
                 { name := String.mk nameL
                   id := String.mk (pyReplaceChar ' ' (("%20").data) nameL)
                   args := String.mk (joinSep ((", ").data) parts)
                   doc := String.mk (collapseTicks (stripTags docL))
                   library := library_name
                   source := jgetD o (("source").data) (.str [])
                   lineno := jgetD o (("lineno").data) (.str []) }))
             | _ => .error ("Parsing error: shortdoc is not a string"))
        | _ => .error ("Parsing error: args is not iterable of records")
      | _ => .error ("Parsing error: name is not a string")
    else .ok none
  | _ => .error ("Parsing error: keyword record is not an object")

/-- The normalizer loop over the decoded record list, accumulating the
keywords dictionary by Python dict assignment. -/
def normLoop (library_name : String) (acc : List (String × KeywordRecord)) :
    List Json → Except String (List (String × KeywordRecord))
  | [] => .ok acc
  | r :: rest =>
    match buildKeyword library_name r with
    | .error e => .error e
    | .ok none => normLoop library_name acc rest
    | .ok (some (k, rec)) => normLoop library_name (dinsert k rec acc) rest

/-- The Keyword Normalizer: decoded record list to keywords mapping. -/
def normalizeKeywords (library_name : String) (records : List Json) :
    Except String (List (String × KeywordRecord)) :=
  normLoop library_name [] records

/-- Result of `_parse_library_keywords`. -/
inductive LibParse where
  | ok (keywords : List (String × KeywordRecord)) : LibParse
  | err (msg : String) : LibParse
deriving DecidableEq

/-- Embedding of `_parse_library_keywords` on the raw text of a cached
library document: anchor search, brace scan, JSON decode, normalize. -/
def parseLibraryKeywords (library_name : String) (html : List Char) : LibParse :=
  match extractLibdocSpan html with
  | .noAnchor => .err ("Could not find libdoc in HTML")
  | .unterminated => .err ("Could not find end of libdoc JSON")
  | .span s =>
    match pyJsonLoads s with
    | none => .err ("JSON parsing error")
    | some (.obj o) =>
      match jgetD o (("keywords").data) (.arr .nil) with
      | .arr records =>
        (match normalizeKeywords library_name (jarrToList records) with
         | .ok kws => .ok kws
         | .error e => .err e)
      | .str _ => .err ("Parsing error: keywords is not a record list")
      | .obj _ => .err ("Parsing error: keywords is not a record list")
      | _ => .err ("Parsing error: keywords is not iterable")
    | some _ => .err ("Parsing error: libdoc is not an object")

/-- Stored name of a decoded record, when the record would produce a
dictionary entry: a truthy string `name`. -/
def recName (r : Json) : Option String :=
  match r with
  | .obj o =>
    match jgetD o (("name").data) (.str []) with
    | .str s => if s = [] then none else some (String.mk s)
    | _ => none
  | _ => none

/-- Characters with no structural meaning for the brace scanner outside
strings: not a backslash, not a quote, not a brace. -/
def plainChar (c : Char) : Prop :=
  c ≠ '\\' ∧ c ≠ '\"' ∧ c ≠ '\x7b' ∧ c ≠ '\x7d'

instance (c : Char) : Decidable (plainChar c) := by
  unfold plainChar; infer_instance

/-! ## The Section Extractor (`DocumentationParser`)

`_parse_documentation` feeds the document to `html.parser.HTMLParser`; the
tokenizer is an external library, so the document is embedded as its event
stream (start tags with attributes, end tags, text events), and the class's
three handlers plus `get_sections` are embedded one for one. -/

/-- One event delivered by the HTML tokenizer. -/
inductive HtmlEvent where
  | startTag (tag : String) (attrs : List (String × String)) : HtmlEvent
  | endTag (tag : String) : HtmlEvent
  | text (d : String) : HtmlEvent
deriving DecidableEq

/-- The heading tags the parser reacts to. -/
def isHeading (t : String) : Bool :=
  t = "h1" || t = "h2" || t = "h3" || t = "h4"

/-- The heading digit `int(tag[1])` for the four heading tags. -/
def headingLevel (t : String) : Nat :=
  if t = "h1" then 1 else if t = "h2" then 2 else if t = "h3" then 3
  else if t = "h4" then 4 else 0

/-- Python `dict(attrs).get(k, d)`: a later duplicate attribute wins. -/
def attrsGet (attrs : List (String × String)) (k : String) (d : String) : String :=
  match alookup k attrs.reverse with
  | some v => v
  | none => d

/-- One extracted section. -/
structure Section where
  id : String
  level : Nat
  title : String
  content : String
deriving DecidableEq

/-- Mutable state of `DocumentationParser`. -/
structure PState where
  sections : List Section
  current : Option Section
  content : List (List Char)
  inSection : Bool

/-- Closing a section: `' '.join(current_content).strip()`. -/
def closeSection (cur : Section) (content : List (List Char)) : Section :=
  { cur with content := String.mk (pyStrip (joinSep ([' ']) content)) }

/-- `handle_starttag`: an h1-h4 start tag closes any open section and
opens a fresh one with the tag's `id` attribute (or empty). -/
def handleStart (st : PState) (tag : String) (attrs : List (String × String)) : PState :=
  if isHeading tag then
    { sections :=
        match st.current with
        | some cur => st.sections ++ [closeSection cur st.content]
        | none => st.sections
      current := some
        { id := attrsGet attrs ("id") (""), level := headingLevel tag,
          title := "", content := "" }
      content := []
      inSection := true }
  else st

/-- `handle_endtag`: an h1-h4 end tag clears the in-heading flag. -/
def handleEnd (st : PState) (tag : String) : PState :=
  if isHeading tag then { st with inSection := false } else st

/-- `handle_data`: inside a heading the (stripped) text becomes the title,
overwriting any previous one; outside, non-empty stripped text is appended
to the content accumulator; text with no open section is dropped. -/
def handleData (st : PState) (d : String) : PState :=
  match st.current with
  | some cur =>
    if st.inSection then
      { st with current := some { cur with title := String.mk (pyStrip d.data) } }
    else
      if pyStrip d.data ≠ [] then { st with content := st.content ++ [pyStrip d.data] }
      else st
  | none => st

/-- Dispatch one tokenizer event to the matching handler. -/
def handleEvent (st : PState) (e : HtmlEvent) : PState :=
  match e with
  | .startTag t attrs => handleStart st t attrs
  | .endTag t => handleEnd st t
  | .text d => handleData st d

/-- The parser's initial state. -/
def initPState : PState :=
  { sections := [], current := none, content := [], inSection := false }

/-- `get_sections`: a section still open at end of input is closed and
appended. -/
def finalizeP (st : PState) : List Section :=
  match st.current with
  | some cur => st.sections ++ [closeSection cur st.content]
  | none => st.sections

/-- Feeding the whole event stream and collecting the sections. -/
def getSections (events : List HtmlEvent) : List Section :=
  finalizeP (events.foldl handleEvent initPState)

/-! ### Specification-side description of the Section Extractor

These three functions restate the spec's words (document order, one
section per heading, title from the last text event inside the heading,
content from the trimmed non-empty text between the heading and the next
heading, leading text dropped, open section closed at end of input);
`c7_section_extractor_refinement` proves them equal to `getSections`. -/

mutual
/-- Spec: events before the first h1-h4 start tag produce nothing. -/
def specSections : List HtmlEvent → List Section
  | [] => []
  | .startTag t attrs :: rest =>
    if isHeading t then
      specHeading (attrsGet attrs ("id") ("")) (headingLevel t) ("") rest
    else specSections rest
  | _ :: rest => specSections rest

/-- Spec: inside an open heading tag, the last text event (stripped) wins
as the title; a further heading start closes this section with empty
content; the heading's end tag starts content collection; end of input
closes the section. -/
def specHeading (id : String) (level : Nat) (title : String) :
    List HtmlEvent → List Section
  | [] => [{ id := id, level := level, title := title,
             content := String.mk (pyStrip (joinSep ([' ']) [])) }]
  | .startTag t attrs :: rest =>
    if isHeading t then
      { id := id, level := level, title := title,
        content := String.mk (pyStrip (joinSep ([' ']) [])) }
        :: specHeading (attrsGet attrs ("id") ("")) (headingLevel t) ("") rest
    else specHeading id level title rest
  | .endTag t :: rest =>
    if isHeading t then specContent id level title [] rest
    else specHeading id level title rest
  | .text d :: rest => specHeading id level (String.mk (pyStrip d.data)) rest

/-- Spec: after the heading closes, each trimmed non-empty text event is
collected in order; the section's content is the collection joined with
single spaces; the next heading start (or end of input) emits the
section. -/
def specContent (id : String) (level : Nat) (title : String) (acc : List (List Char)) :
    List HtmlEvent → List Section
  | [] => [{ id := id, level := level, title := title,
             content := String.mk (pyStrip (joinSep ([' ']) acc)) }]
  | .startTag t attrs :: rest =>
    if isHeading t then
      { id := id, level := level, title := title,
        content := String.mk (pyStrip (joinSep ([' ']) acc)) }
        :: specHeading (attrsGet attrs ("id") ("")) (headingLevel t) ("") rest
    else specContent id level title acc rest
  | .endTag _ :: rest => specContent id level title acc rest
  | .text d :: rest =>
    if pyStrip d.data ≠ [] then specContent id level title (acc ++ [pyStrip d.data]) rest
    else specContent id level title acc rest
end

/-- Number of h1-h4 start-tag events in the stream. -/
def countHeadings (events : List HtmlEvent) : Nat :=
  events.countP (fun e =>
    match e with
    | .startTag t _ => isHeading t
    | _ => false)

/-! ## The section search of `search_rf_documentation` -/

/-- Fixed version string of the server. -/
def RF_VERSION : String := "7.4.1"

/-- URL of the primary document. -/
def RF_DOCS_URL : String :=
  ("https://robotframework.org/robotframework/") ++ RF_VERSION
    ++ ("/RobotFrameworkUserGuide.html")

/-- Base URL of the per-library documents. -/
def RF_BASE_LIB_URL : String :=
  ("https://robotframework.org/robotframework/") ++ RF_VERSION ++ ("/libraries")

/-- One formatted search result. -/
structure SearchResult where
  title : String
  id : String
  level : Nat
  relevance : Nat
  content_preview : String
  url : String
deriving DecidableEq

/-- Formatting of one matching section (title, id, level, relevance,
300-character content preview with ellipsis, deep link). -/
def formatSection (relevance : Nat) (s : Section) : SearchResult :=
  { title := s.title, id := s.id, level := s.level, relevance := relevance,
    content_preview := String.mk (s.content.data.take 300 ++ ("...").data),
    url := RF_DOCS_URL ++ ("#") ++ s.id }

/-- The scoring loop of `search_rf_documentation`: case-insensitive
substring counts in title (weight 10) and content (weight 1); sections
with both counts zero are skipped; insertion order is preserved. -/
def scoredResults (sections : List Section) (query : String) : List SearchResult :=
  sections.filterMap (fun s =>
    if 0 < countSub (pyLower s.title.data) (pyLower query.data) ∨
        0 < countSub (pyLower s.content.data) (pyLower query.data) then
      some (formatSection
        (countSub (pyLower s.title.data) (pyLower query.data) * 10
          + countSub (pyLower s.content.data) (pyLower query.data)) s)
    else none)

/-- Descending-relevance comparison used by the sort. -/
def relDescOrder (a b : SearchResult) : Prop :=
  b.relevance ≤ a.relevance

instance : DecidableRel relDescOrder := fun a b =>
  (inferInstance : Decidable (b.relevance ≤ a.relevance))

instance : IsTotal SearchResult relDescOrder :=
  ⟨fun a b => le_total b.relevance a.relevance⟩

instance : IsTrans SearchResult relDescOrder :=
  ⟨fun _ _ _ hab hbc => le_trans hbc hab⟩

/-- `results.sort(key=relevance, reverse=True)`: Python's sort is stable,
and a stable sort's output is determined by the key order, so the stable
insertion sort below computes exactly the same list. -/
def sortByRelevance (l : List SearchResult) : List SearchResult :=
  l.insertionSort relDescOrder

/-- The search response record. -/
structure SearchResponse where
  version : String
  query : String
  total_matches : Nat
  results : List SearchResult
deriving DecidableEq

/-- The index-to-response part of `search_rf_documentation`: score, sort
descending by relevance (stable), count, truncate. -/
def search_rf_documentation_core (sections : List Section) (query : String)
    (max_results : Nat) : SearchResponse :=
  { version := RF_VERSION, query := query,
    total_matches := (sortByRelevance (scoredResults sections query)).length,
    results := (sortByRelevance (scoredResults sections query)).take max_results }

/-! ## The keyword lookup of `get_keyword_documentation` -/

/-- The name normalization applied to both the query and every candidate:
lower-case, then underscores to spaces, then hyphens to spaces. -/
def normalizeKwName (s : String) : String :=
  String.mk (pyReplaceChar '-' ([' ']) (pyReplaceChar '_' ([' ']) (pyLower s.data)))

/-- The persisted Keyword Index artifact. -/
structure KeywordIndexArtifact where
  version : String
  parsed_at : String
  total_libraries : Nat
  total_keywords : Nat
  libraries : List (String × List (String × KeywordRecord))
deriving DecidableEq

/-- Result of a keyword lookup. -/
inductive LookupResult where
  | found (version keyword library arguments documentation url : String) : LookupResult
  | notFound (version keyword message hint : String) : LookupResult
  | libError (error : String) (available_libraries : List String) : LookupResult
deriving DecidableEq

/-- The stored keyword name a successful lookup resolved to. -/
def lookupKeywordName : LookupResult → Option String
  | .found _ k _ _ _ _ => some k
  | _ => none

/-- The inner loop over one library's keyword map: first stored name whose
normalization equals the normalized query wins. -/
def lookupScanKeywords (lib_name : String) (target : String) :
    List (String × KeywordRecord) → Option LookupResult
  | [] => none
  | (k, v) :: tl =>
    if normalizeKwName k = target then
      some (.found RF_VERSION k lib_name v.args v.doc
        (RF_BASE_LIB_URL ++ ("/") ++ lib_name ++ (".html") ++ ("#") ++ v.id))
    else lookupScanKeywords lib_name target tl

/-- The outer loop over the libraries in index iteration order. -/
def lookupScanLibraries (target : String) :
    List (String × List (String × KeywordRecord)) → Option LookupResult
  | [] => none
  | (lib, kws) :: tl =>
    match lookupScanKeywords lib target kws with
    | some r => some r
    | none => lookupScanLibraries target tl

/-- The lookup logic of `get_keyword_documentation` over the decoded
artifact's `libraries` mapping: restrict to the named library when one is
given (error when it is absent), otherwise scan all libraries in
iteration order; a miss is a structured negative result. -/
def lookupKeywordIn (keyword_name : String) (library_name : Option String)
    (libraries : List (String × List (String × KeywordRecord))) : LookupResult :=
  let fallthrough : LookupResult :=
    .notFound RF_VERSION keyword_name
      (("Keyword '") ++ keyword_name ++ ("' not found in any standard library for RF ")
        ++ RF_VERSION)
      ("Use get_all_keywords() to see all available keywords")
  match library_name with
  | some lib =>
    match alookup lib libraries with
    | none => .libError (("Library '") ++ lib ++ ("' not found")) (libraries.map Prod.fst)
    | some kws =>
      match lookupScanKeywords lib (normalizeKwName keyword_name) kws with
      | some r => r
      | none => fallthrough
  | none =>
    match lookupScanLibraries (normalizeKwName keyword_name) libraries with
    | some r => r
    | none => fallthrough

/-! ## The Index Builder (`fetch_rf_documentation`) and its state

The cache directory and the two artifact files become an explicit state
record; the HTTP layer (`_download_file`) becomes a `Network` value
handing back either a body or an error message; `datetime.now()` becomes
the `now` parameter.  The primary document is carried as its tokenizer
event stream (the HTML tokenizer is an external library); the per-library
documents are raw text, which `_parse_library_keywords` consumes
directly. -/

/-- The persisted Section Index artifact. -/
structure SectionIndexArtifact where
  version : String
  parsed_at : String
  total_sections : Nat
  sections : List Section
deriving DecidableEq

/-- On-disk state: the cache slots and the two index artifacts. -/
structure ServerState where
  docsFile : Option (List HtmlEvent)
  libFiles : String → Option (List Char)
  indexFile : Option SectionIndexArtifact
  keywordsIndex : Option KeywordIndexArtifact

/-- The network: one fetch for the primary document URL and one per
library document URL (library URLs are determined by the library name). -/
structure Network where
  primary : Except String (List HtmlEvent)
  library : String → Except String (List Char)

/-- The configured standard libraries, in iteration order. -/
def STANDARD_LIBRARIES : List String :=
  [("BuiltIn"), ("Collections"), ("DateTime"), ("OperatingSystem"), ("Process"),
   ("Screenshot"), ("String"), ("Telnet"), ("XML")]

/-- One library's entry in the rebuild report. -/
structure LibReportEntry where
  success : Bool
  total_keywords : Nat
deriving DecidableEq

/-- Status of the primary document in the rebuild report. -/
inductive UserGuideStatus where
  | fetched : UserGuideStatus
  | cached : UserGuideStatus
  | fetchError (msg : String) : UserGuideStatus
deriving DecidableEq

/-- `results["user_guide"]["success"]`. -/
def ugSuccess : UserGuideStatus → Bool
  | .fetchError _ => false
  | _ => true

/-- The rebuild report. -/
structure FetchResults where
  version : String
  files_downloaded : List String
  user_guide : UserGuideStatus
  indexing : Bool
  libraries : List (String × LibReportEntry)
  keywords_index_written : Bool
  success : Bool
deriving DecidableEq

/-- Accumulator of the per-library loop. -/
structure LibAcc where
  files_downloaded : List String
  libraries : List (String × LibReportEntry)
  all_keywords : List (String × List (String × KeywordRecord))
  total_keywords : Nat
  attempted : List String

/-- Result of a whole rebuild: the report, the new state, and (model
instrumentation) the network fetches attempted. -/
structure FetchOutcome where
  results : FetchResults
  state : ServerState
  attempted : List String

/-- One iteration of the library loop: download when forced or missing
(a failed download leaves no file), then parse whenever the file exists,
recording the per-library report entry and folding successful keyword
mappings into the accumulator. -/
def processLibrary (force_refresh : Bool) (net : Network) (st : ServerState)
    (acc : LibAcc) (library_name : String) : ServerState × LibAcc :=
  let (st1, acc1) :=
    if force_refresh ∨ st.libFiles library_name = none then
      match net.library library_name with
      | .ok content =>
        ({ st with libFiles := fun l => if l = library_name then some content
            else st.libFiles l },
         { acc with
            files_downloaded := acc.files_downloaded ++ [library_name ++ (".html")],
            attempted := acc.attempted ++ [library_name] })
      | .error _ =>
        (st, { acc with attempted := acc.attempted ++ [library_name] })
    else (st, acc)
  match st1.libFiles library_name with
  | none => (st1, acc1)
  | some content =>
    match parseLibraryKeywords library_name content with
    | .ok kws =>
      (st1, { acc1 with
        libraries := acc1.libraries
          ++ [(library_name, { success := true, total_keywords := kws.length })],
        all_keywords := acc1.all_keywords ++ [(library_name, kws)],
        total_keywords := acc1.total_keywords + kws.length })
    | .err _ =>
      (st1, { acc1 with
        libraries := acc1.libraries
          ++ [(library_name, { success := false, total_keywords := 0 })] })

/-- The per-library loop over the configured libraries in order. -/
def processLibraries (force_refresh : Bool) (net : Network) :
    List String → ServerState → LibAcc → ServerState × LibAcc
  | [], st, acc => (st, acc)
  | lib :: rest, st, acc =>
    let p := processLibrary force_refresh net st acc lib
    processLibraries force_refresh net rest p.1 p.2

/-- The primary-document step of `fetch_rf_documentation`: download
unless cached and not forced; returns the new state, the user-guide
status, the files-downloaded entries, and the fetches attempted. -/
def fetchPrimary (force_refresh : Bool) (net : Network) (st : ServerState) :
    ServerState × UserGuideStatus × List String × List String :=
  if force_refresh ∨ st.docsFile = none then
    match net.primary with
    | .ok events =>
      ({ st with docsFile := some events }, .fetched,
        [("RobotFrameworkUserGuide.html")], [("user_guide")])
    | .error e => (st, .fetchError e, [], [("user_guide")])
  else (st, .cached, [], [])

/-- The `_parse_documentation` step: whenever the primary document is
present, extract its sections and overwrite the Section Index wholesale. -/
def indexPrimary (now : String) (st : ServerState) : ServerState × Bool :=
  match st.docsFile with
  | none => (st, false)
  | some events =>
    ({ st with indexFile := some (
        { version := RF_VERSION, parsed_at := now,
          total_sections := (getSections events).length,
          sections := getSections events }) }, true)

/-- The Keyword Index write: `if all_keywords:` — overwrite the artifact
wholesale from this run's accumulator, or leave it untouched when no
library parsed successfully. -/
def writeKwIndex (now : String) (st : ServerState) (acc : LibAcc) : ServerState :=
  if acc.all_keywords.isEmpty then st
  else { st with keywordsIndex := some (
    { version := RF_VERSION, parsed_at := now,
      total_libraries := acc.all_keywords.length,
      total_keywords := acc.total_keywords,
      libraries := acc.all_keywords }) }

/-- Embedding of `fetch_rf_documentation`: fetch the primary document
unless cached and not forced; index it whenever present (full overwrite of
the Section Index); run the library loop; write the Keyword Index (full
overwrite) only when at least one library parsed successfully; overall
success is the primary document's success. -/
def fetch_rf_documentation (force_refresh : Bool) (net : Network) (now : String)
    (st : ServerState) : FetchOutcome :=
  let prim := fetchPrimary force_refresh net st
  let st1 := prim.1
  let indexed := indexPrimary now st1
  let st2 := indexed.1
  let folded := processLibraries force_refresh net STANDARD_LIBRARIES st2
    { files_downloaded := prim.2.2.1, libraries := [], all_keywords := [],
      total_keywords := 0, attempted := prim.2.2.2 }
  let st3 := folded.1
  let acc := folded.2
  { results :=
      { version := RF_VERSION, files_downloaded := acc.files_downloaded,
        user_guide := prim.2.1, indexing := indexed.2, libraries := acc.libraries,
        keywords_index_written := !acc.all_keywords.isEmpty,
        success := ugSuccess prim.2.1 },
    state := writeKwIndex now st3 acc,
    attempted := acc.attempted }

/-! ## The query layer wrappers over the state -/

/-- The regex engine behind `re.compile(pattern, re.IGNORECASE)` together
with `.search`: compiling may fail (`None`), a compiled pattern is a
predicate on keyword names.  The engine is external to the core, so it is
a parameter. -/
structure RegexEngine where
  compile : String → Option (String → Bool)

/-- Outcome of `search_rf_documentation` at the state level. -/
inductive SearchOutcome where
  | missing (error hint : String) : SearchOutcome
  | ok (r : SearchResponse) : SearchOutcome
deriving DecidableEq

/-- Embedding of `search_rf_documentation`: read the Section Index
artifact; when it is missing, return the error/hint payload without any
fetch; never touch the raw documents. -/
def search_rf_documentation (query : String) (max_results : Nat)
    (st : ServerState) : SearchOutcome :=
  match st.indexFile with
  | none => .missing ("Documentation index not found. Call fetch_rf_documentation first.")
      ("Run fetch_rf_documentation() to download and index docs")
  | some idx => .ok (search_rf_documentation_core idx.sections query max_results)

/-- One formatted keyword listing entry. -/
structure KeywordListing where
  name : String
  library : String
  args : String
  description : String
deriving DecidableEq

/-- `sorted(keywords.items())`: Python's stable ascending sort on unique
string keys. -/
def sortByKeyStr (l : List (String × KeywordRecord)) : List (String × KeywordRecord) :=
  l.insertionSort (fun a b => a.1 ≤ b.1)

/-- Format one keyword mapping entry for listing output. -/
def formatKeywordListing (lib : String) (p : String × KeywordRecord) : KeywordListing :=
  { name := p.1, library := lib, args := p.2.args,
    description := String.mk (p.2.doc.data.take 200) }

/-- Outcome of `get_library_keywords`. -/
inductive LibKeywordsResult where
  | ok (version library : String) (total_keywords : Nat)
      (keywords : List KeywordListing) : LibKeywordsResult
  | unknownLibrary (error : String) (available_libraries : List String) : LibKeywordsResult
  | fetchFailed (error : String) : LibKeywordsResult
  | parseFailed (r : LibParse) : LibKeywordsResult
  | invalidPattern (error : String) : LibKeywordsResult
deriving DecidableEq

/-- Embedding of `get_library_keywords`: validate the library name,
trigger a full rebuild when the library's cache slot is missing, then
re-parse the raw library document (not the Keyword Index artifact), apply
the optional regex filter, sort by name and format. -/
def get_library_keywords (library_name : String) (filter_pattern : Option String)
    (reng : RegexEngine) (net : Network) (now : String) (st : ServerState) :
    LibKeywordsResult × ServerState :=
  if library_name ∉ STANDARD_LIBRARIES then
    (.unknownLibrary (("Unknown library: ") ++ library_name) STANDARD_LIBRARIES, st)
  else
    let fetched : ServerState × Bool :=
      match st.libFiles library_name with
      | some _ => (st, true)
      | none =>
        let out := fetch_rf_documentation false net now st
        (out.state, out.results.success)
    let st1 := fetched.1
    if fetched.2 = false then
      (.fetchFailed (("Failed to fetch ") ++ library_name ++ (" documentation")), st1)
    else
      match st1.libFiles library_name with
      | none => (.parseFailed (.err (library_name ++ (" documentation not downloaded."))), st1)
      | some content =>
        match parseLibraryKeywords library_name content with
        | .err e => (.parseFailed (.err e), st1)
        | .ok kws =>
          match filter_pattern with
          | none =>
            (.ok RF_VERSION library_name kws.length
              ((sortByKeyStr kws).map (formatKeywordListing library_name)), st1)
          | some pat =>
            match reng.compile pat with
            | none => (.invalidPattern ("Invalid regex pattern"), st1)
            | some matcher =>
              let kws2 := kws.filter (fun p => matcher p.1)
              (.ok RF_VERSION library_name kws2.length
                ((sortByKeyStr kws2).map (formatKeywordListing library_name)), st1)

/-- Outcome of `get_all_keywords`. -/
inductive AllKeywordsResult where
  | ok (version : String) (total_keywords total_libraries : Nat)
      (libraries : List (String × List KeywordListing)) : AllKeywordsResult
  | fetchFailed (error : String) : AllKeywordsResult
  | readFailed (error : String) : AllKeywordsResult
  | invalidPattern (error : String) : AllKeywordsResult
deriving DecidableEq

/-- Keyword listing formatting across libraries, each library's mapping
sorted by name. -/
def formatAllLibraries (libs : List (String × List (String × KeywordRecord))) :
    List (String × List KeywordListing) :=
  libs.map (fun p => (p.1, (sortByKeyStr p.2).map (formatKeywordListing p.1)))

/-- Sum of the per-library listing lengths. -/
def totalListed (libs : List (String × List KeywordListing)) : Nat :=
  libs.foldl (fun a p => a + p.2.length) 0

/-- Embedding of `get_all_keywords`: trigger a rebuild only when the
Keyword Index artifact is missing; read the artifact; apply the optional
regex filter (dropping emptied libraries); format. -/
def get_all_keywords (filter_pattern : Option String) (reng : RegexEngine)
    (net : Network) (now : String) (st : ServerState) :
    AllKeywordsResult × ServerState :=
  let fetched : ServerState × Bool :=
    match st.keywordsIndex with
    | some _ => (st, true)
    | none =>
      let out := fetch_rf_documentation false net now st
      (out.state, out.results.success)
  let st1 := fetched.1
  if fetched.2 = false then (.fetchFailed ("Failed to fetch documentation"), st1)
  else
    match st1.keywordsIndex with
    | none => (.readFailed ("Failed to read keywords index"), st1)
    | some idx =>
      match filter_pattern with
      | none =>
        (.ok RF_VERSION (totalListed (formatAllLibraries idx.libraries))
          (formatAllLibraries idx.libraries).length (formatAllLibraries idx.libraries), st1)
      | some pat =>
        match reng.compile pat with
        | none => (.invalidPattern ("Invalid regex pattern"), st1)
        | some matcher =>
          let filtered := (idx.libraries.map (fun p =>
              (p.1, p.2.filter (fun q => matcher q.1)))).filter (fun p => !p.2.isEmpty)
          (.ok RF_VERSION (totalListed (formatAllLibraries filtered))
            (formatAllLibraries filtered).length (formatAllLibraries filtered), st1)

/-- Outcome of `get_keyword_documentation` at the state level. -/
inductive KwDocResult where
  | res (r : LookupResult) : KwDocResult
  | fetchFailed (error : String) : KwDocResult
  | readFailed (error : String) : KwDocResult
deriving DecidableEq

/-- Embedding of `get_keyword_documentation`: trigger a rebuild only when
the Keyword Index artifact is missing, then run the lookup over the
artifact's libraries mapping. -/
def get_keyword_documentation (keyword_name : String) (library_name : Option String)
    (net : Network) (now : String) (st : ServerState) : KwDocResult × ServerState :=
  let fetched : ServerState × Bool :=
    match st.keywordsIndex with
    | some _ => (st, true)
    | none =>
      let out := fetch_rf_documentation false net now st
      (out.state, out.results.success)
  let st1 := fetched.1
  if fetched.2 = false then (.fetchFailed ("Failed to fetch documentation"), st1)
  else
    match st1.keywordsIndex with
    | none => (.readFailed ("Failed to search keyword"), st1)
    | some idx => (.res (lookupKeywordIn keyword_name library_name idx.libraries), st1)

/-! ## Concrete inputs used by witnesses and counterexamples -/

/-- A minimal keyword record for lookup examples. -/
def mkPlainRec (nm lib : String) : KeywordRecord :=
  { name := nm, id := nm, args := "", doc := "", library := lib,
    source := .str [], lineno := .str [] }

/-- Index in which an earlier library stores `Run_Keyword`, shadowing a
later library's `Run Keyword` under normalization. -/
def c5Idx : List (String × List (String × KeywordRecord)) :=
  [(("A"), [(("Run_Keyword"), mkPlainRec ("Run_Keyword") ("A"))]),
   (("B"), [(("Run Keyword"), mkPlainRec ("Run Keyword") ("B"))])]

/-- Index with a single `Run Keyword` record. -/
def c5IdxW : List (String × List (String × KeywordRecord)) :=
  [(("BuiltIn"), [(("Run Keyword"), mkPlainRec ("Run Keyword") ("BuiltIn"))])]

/-- A network on which every request fails. -/
def deadNet : Network :=
  { primary := .error ("URL Error: down"),
    library := fun _ => .error ("HTTP Error 404: Not Found") }

/-- A regex engine on which every pattern is invalid (never exercised by
the statements below, which pass no pattern). -/
def noRegex : RegexEngine := { compile := fun _ => none }

/-- A minimal valid library document holding one keyword record. -/
def tinyLibDoc (nm : String) : List Char :=
  ("libdoc = \x7b\"keywords\": [\x7b\"name\": \"").data ++ nm.data ++ ("\"\x7d]\x7d").data

/-- A fixed Section Index artifact. -/
def c2SectionIdx : SectionIndexArtifact :=
  { version := RF_VERSION, parsed_at := "t0", total_sections := 0, sections := [] }

/-- A fixed (empty) Keyword Index artifact. -/
def c2KwIdx : KeywordIndexArtifact :=
  { version := RF_VERSION, parsed_at := "t0", total_libraries := 0, total_keywords := 0,
    libraries := [] }

/-- States with identical persisted artifacts whose raw cached `BuiltIn`
document differs. -/
def c2State (nm : String) : ServerState :=
  { docsFile := some [],
    libFiles := fun l => if l = ("BuiltIn") then some (tinyLibDoc nm) else none,
    indexFile := some c2SectionIdx,
    keywordsIndex := some c2KwIdx }

/-- State for the partial-failure scenario: everything cached except
`Telnet`. -/
def c3State : ServerState :=
  { docsFile := some [],
    libFiles := fun l =>
      if l = ("Telnet") then none
      else if l ∈ STANDARD_LIBRARIES then some (tinyLibDoc l) else none,
    indexFile := none, keywordsIndex := none }

/-- A prior Keyword Index artifact holding a `BuiltIn` entry. -/
def c9Prior : KeywordIndexArtifact :=
  { version := RF_VERSION, parsed_at := "t0", total_libraries := 1, total_keywords := 1,
    libraries := [(("BuiltIn"), [(("Old Keyword"), mkPlainRec ("Old Keyword") ("BuiltIn"))])] }

/-- State in which every library cache slot is empty but a prior Keyword
Index artifact exists. -/
def c9State : ServerState :=
  { docsFile := some [], libFiles := fun _ => none,
    indexFile := none, keywordsIndex := some c9Prior }

/-- Fully populated cache for the idempotence witness. -/
def c8State : ServerState :=
  { docsFile := some [], libFiles := fun _ => some (tinyLibDoc ("K")),
    indexFile := none, keywordsIndex := none }

/-- A network on which every request succeeds with a minimal document. -/
def c9GoodNet : Network :=
  { primary := .ok [], library := fun l => .ok (tinyLibDoc l) }

/-- The state of `c9State` with the prior Keyword Index artifact removed. -/
def c9NoPrior : ServerState :=
  { docsFile := some [], libFiles := fun _ => none,
    indexFile := none, keywordsIndex := none }

/-- The keyword mapping `_parse_library_keywords` extracts from the
minimal library document of `tinyLibDoc`. -/
def tinyKws (nm : String) : List (String × KeywordRecord) :=
  match parseLibraryKeywords nm (tinyLibDoc nm) with
  | .ok kws => kws
  | .err _ => []

/-- The per-library report entries the loop produces when every cache slot
is populated (no downloads). -/
def cachedReport (files : String → Option (List Char)) :
    List String → List (String × LibReportEntry)
  | [] => []
  | lib :: rest =>
    match files lib with
    | none => cachedReport files rest
    | some c =>
      match parseLibraryKeywords lib c with
      | .ok kws => (lib, { success := true, total_keywords := kws.length })
          :: cachedReport files rest
      | .err _ => (lib, { success := false, total_keywords := 0 }) :: cachedReport files rest

/-- The accumulated keyword mappings the loop produces when every cache
slot is populated. -/
def cachedKeywords (files : String → Option (List Char)) :
    List String → List (String × List (String × KeywordRecord))
  | [] => []
  | lib :: rest =>
    match files lib with
    | none => cachedKeywords files rest
    | some c =>
      match parseLibraryKeywords lib c with
      | .ok kws => (lib, kws) :: cachedKeywords files rest
      | .err _ => cachedKeywords files rest

/-- Equality of two optional Keyword Index artifacts in every field except
`parsed_at` (byte-identical apart from the timestamp). -/
def kwEquivApartTimestamp : Option KeywordIndexArtifact → Option KeywordIndexArtifact → Prop
  | none, none => True
  | some a, some b => a.version = b.version ∧ a.total_libraries = b.total_libraries ∧
      a.total_keywords = b.total_keywords ∧ a.libraries = b.libraries
  | _, _ => False

/-- Section whose content (not title) holds one hit for `library`. -/
def c4SecContentHit : Section :=
  { id := "s1", level := 2, title := "Overview", content := "the library helps" }

/-- Section whose title (not content) holds one hit for `library`. -/
def c4SecTitleHit : Section :=
  { id := "s2", level := 2, title := "Library Basics", content := "" }

/-- A JSON object whose string value holds a literal brace. -/
def c1WitObj : JsonObj :=
  .cons (("a").data) (.str (("x\x7b").data))
    (.cons (("b").data) (.arr (.cons (.num 1) (.cons (.obj .nil) .nil))) .nil)

/-- A surrounding document embedding the anchored object. -/
def c1WitHtml : List Char :=
  ("var ").data ++ ("libdoc = ").data ++ renderJson (.obj c1WitObj) ++ (("; rest").data)

/-- The last of three records, sharing the name `Dup` with the first. -/
def c6Rec3 : Json :=
  .obj (.cons (("name").data) (.str (("Dup").data))
    (.cons (("shortdoc").data) (.str (("second").data)) .nil))

/-- Record list with a duplicate name and an empty-name record. -/
def c6Recs : List Json :=
  [.obj (.cons (("name").data) (.str (("Dup").data))
      (.cons (("shortdoc").data) (.str (("first").data)) .nil)),
   .obj (.cons (("name").data) (.str []) .nil),
   c6Rec3]

/-- The record the normalizer keeps for `Dup` (values of the later input
record). -/
def c6RecLater : KeywordRecord :=
  { name := "Dup", id := "Dup", args := "", doc := "second", library := "L",
    source := .str [], lineno := .str [] }

/-- The full normalizer output on `c6Recs`. -/
def c6Kws : List (String × KeywordRecord) := [(("Dup"), c6RecLater)]

/-! ## Theorems -/

/-! ### Stepping lemmas for the brace/string/escape scanner -/

/-- Outside a string, a character that is not a backslash, quote or brace
leaves the scanner state unchanged. -/
theorem scanLoop_plain {c : Char} (h : plainChar c) (d : Int) (l : List Char) (pos : Nat) :
    scanLoop ⟨d, false, false⟩ (c :: l) pos = scanLoop ⟨d, false, false⟩ l (pos + 1) := by
  obtain ⟨h1, h2, h3, h4⟩ := h
  simp [scanLoop, h1, h2, h3, h4]

/-- Inside a string, any character other than backslash and quote is
ignored (braces included). -/
theorem scanLoop_inString {c : Char} (h1 : c ≠ '\\') (h2 : c ≠ '\"')
    (d : Int) (l : List Char) (pos : Nat) :
    scanLoop ⟨d, true, false⟩ (c :: l) pos = scanLoop ⟨d, true, false⟩ l (pos + 1) := by
  simp [scanLoop, h1, h2]

/-- An opening brace outside a string increments the depth. -/
theorem scanLoop_open (d : Int) (l : List Char) (pos : Nat) :
    scanLoop ⟨d, false, false⟩ ('\x7b' :: l) pos
      = scanLoop ⟨d + 1, false, false⟩ l (pos + 1) := by
  simp [scanLoop]

/-- A closing brace outside a string decrements the depth and terminates
the scan exactly when the depth reaches zero. -/
theorem scanLoop_close (d : Int) (l : List Char) (pos : Nat) :
    scanLoop ⟨d, false, false⟩ ('\x7d' :: l) pos
      = if d - 1 = 0 then some (pos + 1)
        else scanLoop ⟨d - 1, false, false⟩ l (pos + 1) := by
  simp [scanLoop]

/-- A quote (with no escape pending) toggles the in-string flag. -/
theorem scanLoop_quote (d : Int) (b : Bool) (l : List Char) (pos : Nat) :
    scanLoop ⟨d, b, false⟩ ('\"' :: l) pos = scanLoop ⟨d, !b, false⟩ l (pos + 1) := by
  simp [scanLoop]

/-- A backslash (with no escape pending) sets the escape flag. -/
theorem scanLoop_bs (d : Int) (b : Bool) (l : List Char) (pos : Nat) :
    scanLoop ⟨d, b, false⟩ ('\\' :: l) pos = scanLoop ⟨d, b, true⟩ l (pos + 1) := by
  simp [scanLoop]

/-- With an escape pending, the next character is consumed literally. -/
theorem scanLoop_escaped (d : Int) (b : Bool) (c : Char) (l : List Char) (pos : Nat) :
    scanLoop ⟨d, b, true⟩ (c :: l) pos = scanLoop ⟨d, b, false⟩ l (pos + 1) := by
  simp [scanLoop]

/-- A run of plain characters passes through the scanner unchanged. -/
theorem scanLoop_plainList {l1 : List Char} (h : ∀ c ∈ l1, plainChar c)
    (d : Int) (l : List Char) (pos : Nat) :
    scanLoop ⟨d, false, false⟩ (l1 ++ l) pos
      = scanLoop ⟨d, false, false⟩ l (pos + l1.length) := by
  induction l1 generalizing pos with
  | nil => simp
  | cons c tl ih =>
    rw [List.cons_append, scanLoop_plain (h c (by simp)),
      ih (fun c2 hc2 => h c2 (by simp [hc2]))]
    congr 1
    simp
    omega

/-- The escaped body of a JSON string literal passes through the scanner
in in-string mode without changing state, whatever raw characters
(braces, quotes, backslashes included) the string value holds. -/
theorem scanLoop_escBody (s : List Char) (d : Int) (l : List Char) (pos : Nat) :
    scanLoop ⟨d, true, false⟩ (escapeStr s ++ l) pos
      = scanLoop ⟨d, true, false⟩ l (pos + (escapeStr s).length) := by
  induction s generalizing pos with
  | nil => simp [escapeStr]
  | cons c tl ih =>
    have he : escapeStr (c :: tl) = escChar c ++ escapeStr tl := rfl
    by_cases hc : c = '\"' ∨ c = '\\'
    · have h2 : escChar c = ['\\', c] := by rw [escChar, if_pos hc]
      rw [he, h2]
      have h3 : (['\\', c] ++ escapeStr tl) ++ l = '\\' :: (c :: (escapeStr tl ++ l)) := by
        simp
      rw [h3, scanLoop_bs, scanLoop_escaped, ih]
      congr 1
      simp [he, h2]
      omega
    · push_neg at hc
      have h2 : escChar c = [c] := by rw [escChar, if_neg]; push_neg; exact hc
      rw [he, h2]
      have h3 : ([c] ++ escapeStr tl) ++ l = c :: (escapeStr tl ++ l) := by simp
      rw [h3, scanLoop_inString hc.2 hc.1, ih]
      congr 1
      simp [he, h2]
      omega

/-- A full serialised JSON string literal (opening quote, escaped body,
closing quote) passes through the scanner at any depth, leaving the
state unchanged. -/
theorem scanLoop_jsonStr (s : List Char) (d : Int) (l : List Char) (pos : Nat) :
    scanLoop ⟨d, false, false⟩ (('\"' :: (escapeStr s ++ ['\"'])) ++ l) pos
      = scanLoop ⟨d, false, false⟩ l (pos + (1 + (escapeStr s).length + 1)) := by
  rw [List.cons_append, scanLoop_quote]
  have h1 : (escapeStr s ++ ['\"']) ++ l = escapeStr s ++ ('\"' :: l) := by simp
  rw [h1]
  simp only [Bool.not_false]
  rw [scanLoop_escBody, scanLoop_quote]
  simp only [Bool.not_true]
  congr 1
  omega

/-! ### The decimal renderer produces only plain characters -/

theorem digitChar_plain (n : Nat) : plainChar (digitChar n) := by
  rcases n with _ | _ | _ | _ | _ | _ | _ | _ | _ | m <;>
    first
    | decide
    | exact (by decide : plainChar ('9'))

theorem renderNatAux_plain (fuel : Nat) : ∀ (n : Nat), ∀ c ∈ renderNatAux fuel n, plainChar c := by
  induction fuel with
  | zero => intro n c hc; simp [renderNatAux] at hc
  | succ f ih =>
    intro n c hc
    rw [renderNatAux] at hc
    by_cases h10 : n < 10
    · rw [if_pos h10] at hc
      simp at hc
      exact hc ▸ digitChar_plain n
    · rw [if_neg h10] at hc
      simp at hc
      rcases hc with hc | hc
      · exact ih (n / 10) c hc
      · exact hc ▸ digitChar_plain (n % 10)

theorem renderInt_plain (i : Int) : ∀ c ∈ renderInt i, plainChar c := by
  intro c hc
  rw [renderInt] at hc
  split at hc
  · simp [renderNat] at hc
    rcases hc with hc | hc
    · exact hc ▸ (by decide)
    · exact renderNatAux_plain _ _ c hc
  · exact renderNatAux_plain _ _ c hc

/-! ### The scanner walks over any serialised JSON value -/

mutual
/-- At depth at least 1 (i.e. strictly inside the anchored object), a
serialised JSON value passes through the scanner without terminating it
and without changing the scanner state. -/
theorem scanLoop_renderJson (v : Json) : ∀ (d : Int) (l : List Char) (pos : Nat), 1 ≤ d →
    scanLoop ⟨d, false, false⟩ (renderJson v ++ l) pos
      = scanLoop ⟨d, false, false⟩ l (pos + (renderJson v).length) := by
  cases v with
  | null =>
    intro d l pos _
    simp only [renderJson]
    exact scanLoop_plainList (by decide) d l pos
  | bool b =>
    intro d l pos _
    cases b <;> simp only [renderJson]
    · exact scanLoop_plainList (by decide) d l pos
    · exact scanLoop_plainList (by decide) d l pos
  | num n =>
    intro d l pos _
    simp only [renderJson]
    exact scanLoop_plainList (renderInt_plain n) d l pos
  | str s =>
    intro d l pos _
    simp only [renderJson]
    rw [scanLoop_jsonStr]
    congr 1
    simp
    omega
  | arr a =>
    intro d l pos hd
    simp only [renderJson]
    have h1 : ('[' :: (renderArrBody a ++ [']'])) ++ l
        = '[' :: (renderArrBody a ++ (']' :: l)) := by simp
    rw [h1, scanLoop_plain (by decide), scanLoop_renderArr a d _ _ hd,
      scanLoop_plain (by decide)]
    congr 1
    simp
    omega
  | obj o =>
    intro d l pos hd
    simp only [renderJson]
    have h1 : ('\x7b' :: (renderObjBody o ++ ['\x7d'])) ++ l
        = '\x7b' :: (renderObjBody o ++ ('\x7d' :: l)) := by simp
    rw [h1, scanLoop_open, scanLoop_renderObj o (d + 1) _ _ (by omega),
      scanLoop_close, if_neg (by omega)]
    have h2 : d + 1 - 1 = d := by omega
    rw [h2]
    congr 1
    simp
    omega

/-- The comma-separated body of a serialised JSON array passes through the
scanner at depth at least 1. -/
theorem scanLoop_renderArr (a : JsonArr) : ∀ (d : Int) (l : List Char) (pos : Nat), 1 ≤ d →
    scanLoop ⟨d, false, false⟩ (renderArrBody a ++ l) pos
      = scanLoop ⟨d, false, false⟩ l (pos + (renderArrBody a).length) := by
  cases a with
  | nil =>
    intro d l pos _
    simp [renderArrBody]
  | cons v tl =>
    cases tl with
    | nil =>
      intro d l pos hd
      simp only [renderArrBody]
      exact scanLoop_renderJson v d l pos hd
    | cons w tl2 =>
      intro d l pos hd
      simp only [renderArrBody]
      have h1 : (renderJson v ++ (',' :: renderArrBody (.cons w tl2))) ++ l
          = renderJson v ++ (',' :: (renderArrBody (.cons w tl2) ++ l)) := by simp
      rw [h1, scanLoop_renderJson v d _ _ hd, scanLoop_plain (by decide),
        scanLoop_renderArr (.cons w tl2) d _ _ hd]
      congr 1
      simp
      omega

/-- The comma-separated body of a serialised JSON object passes through
the scanner at depth at least 1. -/
theorem scanLoop_renderObj (o : JsonObj) : ∀ (d : Int) (l : List Char) (pos : Nat), 1 ≤ d →
    scanLoop ⟨d, false, false⟩ (renderObjBody o ++ l) pos
      = scanLoop ⟨d, false, false⟩ l (pos + (renderObjBody o).length) := by
  cases o with
  | nil =>
    intro d l pos _
    simp [renderObjBody]
  | cons k v tl =>
    cases tl with
    | nil =>
      intro d l pos hd
      simp only [renderObjBody]
      exact scanLoop_renderField k v d l pos hd
    | cons k2 w tl2 =>
      intro d l pos hd
      simp only [renderObjBody]
      have h1 : (renderField k v ++ (',' :: renderObjBody (.cons k2 w tl2))) ++ l
          = renderField k v ++ (',' :: (renderObjBody (.cons k2 w tl2) ++ l)) := by simp
      rw [h1, scanLoop_renderField k v d _ _ hd, scanLoop_plain (by decide),
        scanLoop_renderObj (.cons k2 w tl2) d _ _ hd]
      congr 1
      simp
      omega

/-- One serialised `"key":value` field passes through the scanner at depth
at least 1. -/
theorem scanLoop_renderField (k : List Char) (v : Json) :
    ∀ (d : Int) (l : List Char) (pos : Nat), 1 ≤ d →
    scanLoop ⟨d, false, false⟩ (renderField k v ++ l) pos
      = scanLoop ⟨d, false, false⟩ l (pos + (renderField k v).length) := by
  intro d l pos hd
  simp only [renderField]
  have h1 : ('\"' :: (escapeStr k ++ ('\"' :: (':' :: renderJson v)))) ++ l
      = ('\"' :: (escapeStr k ++ ['\"'])) ++ (':' :: (renderJson v ++ l)) := by simp
  rw [h1, scanLoop_jsonStr, scanLoop_plain (by decide), scanLoop_renderJson v d _ _ hd]
  congr 1
  simp
  omega
end

/-- Started at the opening brace of a serialised JSON object with depth 0,
the scanner terminates exactly at the object's matching closing brace and
reports exactly the serialisation's length. -/
theorem scanLoop_object (o : JsonObj) (rest : List Char) :
    scanLoop ⟨0, false, false⟩ (renderJson (.obj o) ++ rest) 0
      = some (renderJson (.obj o)).length := by
  simp only [renderJson]
  have h1 : ('\x7b' :: (renderObjBody o ++ ['\x7d'])) ++ rest
      = '\x7b' :: (renderObjBody o ++ ('\x7d' :: rest)) := by simp
  rw [h1, scanLoop_open, scanLoop_renderObj o (0 + 1) _ _ (by omega), scanLoop_close,
    if_pos (by omega : (0 : Int) + 1 - 1 = 0)]
  simp
  omega

/-- C1: for every input text in which the `libdoc\s*=\s*\{` anchor is
found and its opening brace is followed by a well-formed JSON object
serialisation (whose nested objects, arrays and string values may contain
literal brace, quote and backslash characters), the Embedded-JSON
Extractor — escape-pending consumes the next character, backslash sets
escape-pending, a quote toggles the in-string flag, braces inside strings
are ignored, otherwise braces move the depth counter, ending at depth 0 —
returns exactly the minimal balanced span from the anchor's opening brace
to its matching closing brace, both inclusive; decoding the extracted
span is decoding exactly that span. -/
theorem c1_embedded_json_extractor (o : JsonObj) (html suffix : List Char) (s k : Nat)
    (hanchor : findAnchorFrom html 0 = some (s, k))
    (hbody : html.drop (s + k - 1) = renderJson (.obj o) ++ suffix) :
    extractLibdocSpan html = .span (renderJson (.obj o)) ∧
    (∀ sp, extractLibdocSpan html = .span sp →
      pyJsonLoads sp = pyJsonLoads (renderJson (.obj o))) := by
  have h1 : extractLibdocSpan html = .span (renderJson (.obj o)) := by
    unfold extractLibdocSpan
    rw [hanchor]
    simp only [hbody, scanLoop_object]
    congr 1
    exact List.take_left _ _
  refine ⟨h1, fun sp hsp => ?_⟩
  rw [h1] at hsp
  injection hsp with h2
  rw [h2]

/-- Witness for C1 at a concrete document: the anchor sits at index 4 with
match length 10, and the extractor returns exactly the serialised object. -/
theorem c1_embedded_json_extractor_witness :
    extractLibdocSpan c1WitHtml = .span (renderJson (.obj c1WitObj)) := by
  have hspan : renderJson (.obj c1WitObj)
      = ("\x7b\"a\":\"x\x7b\",\"b\":[1,\x7b\x7d]\x7d").data := by
    simp [c1WitObj, renderJson, renderObjBody, renderField, renderArrBody,
      escapeStr, escChar, renderInt, renderNat, renderNatAux, digitChar]
  have hH : c1WitHtml = ("var libdoc = \x7b\"a\":\"x\x7b\",\"b\":[1,\x7b\x7d]\x7d; rest").data := by
    simp only [c1WitHtml, hspan]
    decide
  exact (c1_embedded_json_extractor c1WitObj c1WitHtml (("; rest").data) 4 10
    (by rw [hH]; decide) (by rw [hH, hspan]; decide)).1

/-! ### Supporting lemmas for the keyword normalizer (C6) -/

/-! ### Refinement of the Section Extractor to its specification (C7) -/

mutual
/-- Running the parser from an open-heading state produces the already
closed sections followed by the spec's in-heading continuation. -/
theorem run_from_heading : ∀ (events : List HtmlEvent) (s : List Section) (id : String)
    (level : Nat) (title : String),
    finalizeP (events.foldl handleEvent ⟨s, some ⟨id, level, title, ""⟩, [], true⟩)
      = s ++ specHeading id level title events
  | [], s, id, level, title => by
    simp [finalizeP, specHeading, closeSection]
  | .startTag t attrs :: rest, s, id, level, title => by
    rw [List.foldl_cons]
    by_cases ht : isHeading t
    · have hstep : handleEvent ⟨s, some ⟨id, level, title, ""⟩, [], true⟩ (.startTag t attrs)
          = ⟨s ++ [closeSection ⟨id, level, title, ""⟩ []],
             some ⟨attrsGet attrs ("id") (""), headingLevel t, "", ""⟩, [], true⟩ := by
        simp [handleEvent, handleStart, ht]
      rw [hstep, run_from_heading rest]
      rw [specHeading, if_pos ht]
      simp [closeSection]
    · have hstep : handleEvent ⟨s, some ⟨id, level, title, ""⟩, [], true⟩ (.startTag t attrs)
          = ⟨s, some ⟨id, level, title, ""⟩, [], true⟩ := by
        simp [handleEvent, handleStart, ht]
      rw [hstep, run_from_heading rest]
      rw [specHeading, if_neg ht]
  | .endTag t :: rest, s, id, level, title => by
    rw [List.foldl_cons]
    by_cases ht : isHeading t
    · have hstep : handleEvent ⟨s, some ⟨id, level, title, ""⟩, [], true⟩ (.endTag t)
          = ⟨s, some ⟨id, level, title, ""⟩, [], false⟩ := by
        simp [handleEvent, handleEnd, ht]
      rw [hstep, run_from_content rest]
      rw [specHeading, if_pos ht]
    · have hstep : handleEvent ⟨s, some ⟨id, level, title, ""⟩, [], true⟩ (.endTag t)
          = ⟨s, some ⟨id, level, title, ""⟩, [], true⟩ := by
        simp [handleEvent, handleEnd, ht]
      rw [hstep, run_from_heading rest]
      rw [specHeading, if_neg ht]
  | .text d :: rest, s, id, level, title => by
    rw [List.foldl_cons]
    have hstep : handleEvent ⟨s, some ⟨id, level, title, ""⟩, [], true⟩ (.text d)
        = ⟨s, some ⟨id, level, String.mk (pyStrip d.data), ""⟩, [], true⟩ := by
      simp [handleEvent, handleData]
    rw [hstep, run_from_heading rest]
    rw [specHeading]

/-- Running the parser from a content-collection state produces the already
closed sections followed by the spec's content continuation. -/
theorem run_from_content : ∀ (events : List HtmlEvent) (s : List Section) (id : String)
    (level : Nat) (title : String) (acc : List (List Char)),
    finalizeP (events.foldl handleEvent ⟨s, some ⟨id, level, title, ""⟩, acc, false⟩)
      = s ++ specContent id level title acc events
  | [], s, id, level, title, acc => by
    simp [finalizeP, specContent, closeSection]
  | .startTag t attrs :: rest, s, id, level, title, acc => by
    rw [List.foldl_cons]
    by_cases ht : isHeading t
    · have hstep : handleEvent ⟨s, some ⟨id, level, title, ""⟩, acc, false⟩ (.startTag t attrs)
          = ⟨s ++ [closeSection ⟨id, level, title, ""⟩ acc],
             some ⟨attrsGet attrs ("id") (""), headingLevel t, "", ""⟩, [], true⟩ := by
        simp [handleEvent, handleStart, ht]
      rw [hstep, run_from_heading rest]
      rw [specContent, if_pos ht]
      simp [closeSection]
    · have hstep : handleEvent ⟨s, some ⟨id, level, title, ""⟩, acc, false⟩ (.startTag t attrs)
          = ⟨s, some ⟨id, level, title, ""⟩, acc, false⟩ := by
        simp [handleEvent, handleStart, ht]
      rw [hstep, run_from_content rest]
      rw [specContent, if_neg ht]
  | .endTag t :: rest, s, id, level, title, acc => by
    rw [List.foldl_cons]
    have hstep : handleEvent ⟨s, some ⟨id, level, title, ""⟩, acc, false⟩ (.endTag t)
        = ⟨s, some ⟨id, level, title, ""⟩, acc, false⟩ := by
      simp [handleEvent, handleEnd]
    rw [hstep, run_from_content rest]
    rw [specContent]
  | .text d :: rest, s, id, level, title, acc => by
    rw [List.foldl_cons]
    by_cases hd : pyStrip d.data = []
    · have hstep : handleEvent ⟨s, some ⟨id, level, title, ""⟩, acc, false⟩ (.text d)
          = ⟨s, some ⟨id, level, title, ""⟩, acc, false⟩ := by
        simp [handleEvent, handleData, hd]
      rw [hstep, run_from_content rest]
      rw [specContent, if_neg (by simpa using hd)]
    · have hstep : handleEvent ⟨s, some ⟨id, level, title, ""⟩, acc, false⟩ (.text d)
          = ⟨s, some ⟨id, level, title, ""⟩, acc ++ [pyStrip d.data], false⟩ := by
        simp [handleEvent, handleData, hd]
      rw [hstep, run_from_content rest]
      rw [specContent, if_pos (by simpa using hd)]
end

/-- Running the parser before any heading has been seen produces exactly
the spec's sections: leading content is dropped. -/
theorem run_from_none : ∀ (events : List HtmlEvent) (s : List Section) (c : List (List Char)),
    finalizeP (events.foldl handleEvent ⟨s, none, c, false⟩) = s ++ specSections events
  | [], s, c => by
    simp [finalizeP, specSections]
  | .startTag t attrs :: rest, s, c => by
    rw [List.foldl_cons]
    by_cases ht : isHeading t
    · have hstep : handleEvent ⟨s, none, c, false⟩ (.startTag t attrs)
          = ⟨s, some ⟨attrsGet attrs ("id") (""), headingLevel t, "", ""⟩, [], true⟩ := by
        simp [handleEvent, handleStart, ht]
      rw [hstep, run_from_heading rest]
      rw [specSections, if_pos ht]
    · have hstep : handleEvent ⟨s, none, c, false⟩ (.startTag t attrs)
          = ⟨s, none, c, false⟩ := by
        simp [handleEvent, handleStart, ht]
      rw [hstep, run_from_none rest]
      rw [specSections, if_neg ht]
  | .endTag t :: rest, s, c => by
    rw [List.foldl_cons]
    have hstep : handleEvent ⟨s, none, c, false⟩ (.endTag t)
        = ⟨s, none, c, false⟩ := by
      simp [handleEvent, handleEnd]
    rw [hstep, run_from_none rest]
    rfl
  | .text d :: rest, s, c => by
    rw [List.foldl_cons]
    have hstep : handleEvent ⟨s, none, c, false⟩ (.text d)
        = ⟨s, none, c, false⟩ := by
      simp [handleEvent, handleData]
    rw [hstep, run_from_none rest]
    rfl

mutual
/-- The spec's in-heading continuation emits one section plus one per
further heading start. -/
theorem specHeading_length : ∀ (events : List HtmlEvent) (id : String) (level : Nat)
    (title : String),
    (specHeading id level title events).length = 1 + countHeadings events
  | [], id, level, title => by simp [specHeading, countHeadings]
  | .startTag t attrs :: rest, id, level, title => by
    rw [specHeading]
    by_cases ht : isHeading t
    · rw [if_pos ht]
      simp only [List.length_cons, specHeading_length rest]
      simp [countHeadings, List.countP_cons, ht]
      omega
    · rw [if_neg ht]
      rw [specHeading_length rest]
      simp [countHeadings, List.countP_cons, ht]
  | .endTag t :: rest, id, level, title => by
    rw [specHeading]
    by_cases ht : isHeading t
    · rw [if_pos ht, specContent_length rest]
      simp [countHeadings, List.countP_cons]
    · rw [if_neg ht, specHeading_length rest]
      simp [countHeadings, List.countP_cons]
  | .text d :: rest, id, level, title => by
    rw [specHeading, specHeading_length rest]
    simp [countHeadings, List.countP_cons]

/-- The spec's content continuation emits one section plus one per further
heading start. -/
theorem specContent_length : ∀ (events : List HtmlEvent) (id : String) (level : Nat)
    (title : String) (acc : List (List Char)),
    (specContent id level title acc events).length = 1 + countHeadings events
  | [], id, level, title, acc => by simp [specContent, countHeadings]
  | .startTag t attrs :: rest, id, level, title, acc => by
    rw [specContent]
    by_cases ht : isHeading t
    · rw [if_pos ht]
      simp only [List.length_cons, specHeading_length rest]
      simp [countHeadings, List.countP_cons, ht]
      omega
    · rw [if_neg ht, specContent_length rest]
      simp [countHeadings, List.countP_cons, ht]
  | .endTag t :: rest, id, level, title, acc => by
    rw [specContent, specContent_length rest]
    simp [countHeadings, List.countP_cons]
  | .text d :: rest, id, level, title, acc => by
    rw [specContent]
    by_cases hd : pyStrip d.data = []
    · rw [if_neg (by simpa using hd), specContent_length rest]
      simp [countHeadings, List.countP_cons]
    · rw [if_pos (by simpa using hd), specContent_length rest]
      simp [countHeadings, List.countP_cons]
end

/-- The spec emits exactly one section per h1-h4 start tag. -/
theorem specSections_length : ∀ (events : List HtmlEvent),
    (specSections events).length = countHeadings events
  | [] => by simp [specSections, countHeadings]
  | .startTag t attrs :: rest => by
    rw [specSections]
    by_cases ht : isHeading t
    · rw [if_pos ht, specHeading_length rest]
      simp [countHeadings, List.countP_cons, ht]
      omega
    · rw [if_neg ht, specSections_length rest]
      simp [countHeadings, List.countP_cons, ht]
  | .endTag t :: rest => by
    rw [specSections, specSections_length rest]
    · simp [countHeadings, List.countP_cons]
    · intro t2 attrs h
      simp at h
  | .text d :: rest => by
    rw [specSections, specSections_length rest]
    · simp [countHeadings, List.countP_cons]
    · intro t2 attrs h
      simp at h

/-- C7: for every tokenized HTML document, the Section Extractor's output
equals the specification extraction — sections in document order, one per
h1-h4 heading (their count is exactly the heading count), content only
from trimmed non-empty text between the heading and the next heading or
end of input joined with single spaces, text before the first heading
dropped, a section still open at end of input closed and appended, and
within one heading tag the last text event winning as the title. -/
theorem c7_section_extractor_refinement (events : List HtmlEvent) :
    getSections events = specSections events ∧
    (getSections events).length = countHeadings events := by
  have h : getSections events = specSections events := by
    have h2 := run_from_none events [] []
    simpa [getSections, initPState] using h2
  exact ⟨h, by rw [h, specSections_length]⟩

/-! ### Stability and ordering of the relevance sort (C4, C10) -/

theorem orderedInsert_filter_key (x : SearchResult) (v : Nat) :
    ∀ l : List SearchResult,
      ((l.orderedInsert relDescOrder x).filter (fun a => a.relevance = v))
        = if x.relevance = v then x :: l.filter (fun a => a.relevance = v)
          else l.filter (fun a => a.relevance = v) := by
  intro l
  induction l with
  | nil =>
    by_cases h : x.relevance = v <;> simp [List.orderedInsert, List.filter, h]
  | cons y ys ih =>
    by_cases hr : relDescOrder x y
    · rw [List.orderedInsert, if_pos hr]
      by_cases h : x.relevance = v <;> simp [List.filter_cons, h]
    · rw [List.orderedInsert, if_neg hr]
      have hlt : x.relevance < y.relevance := by
        unfold relDescOrder at hr
        omega
      by_cases hx : x.relevance = v
      · have hyv : ¬ y.relevance = v := by omega
        rw [if_pos hx, List.filter_cons, ih, if_pos hx, List.filter_cons]
        simp [hyv]
      · rw [if_neg hx, List.filter_cons, ih, if_neg hx, List.filter_cons]

theorem insertionSort_filter_key (v : Nat) :
    ∀ l : List SearchResult,
      ((l.insertionSort relDescOrder).filter (fun a => a.relevance = v))
        = l.filter (fun a => a.relevance = v) := by
  intro l
  induction l with
  | nil => simp [List.insertionSort]
  | cons a l ih =>
    rw [List.insertionSort, orderedInsert_filter_key, List.filter_cons]
    by_cases h : a.relevance = v
    · rw [if_pos h, ih]
      simp [h]
    · rw [if_neg h, ih]
      simp [h]

theorem scoredResults_mem {sections : List Section} {query : String} {r : SearchResult}
    (h : r ∈ scoredResults sections query) :
    ∃ s ∈ sections,
      r = formatSection
        (countSub (pyLower s.title.data) (pyLower query.data) * 10
          + countSub (pyLower s.content.data) (pyLower query.data)) s ∧
      (0 < countSub (pyLower s.title.data) (pyLower query.data) ∨
        0 < countSub (pyLower s.content.data) (pyLower query.data)) := by
  rw [scoredResults, List.mem_filterMap] at h
  obtain ⟨s, hs, hf⟩ := h
  by_cases hc : 0 < countSub (pyLower s.title.data) (pyLower query.data) ∨
      0 < countSub (pyLower s.content.data) (pyLower query.data)
  · rw [if_pos hc, Option.some.injEq] at hf
    exact ⟨s, hs, hf.symm, hc⟩
  · rw [if_neg hc] at hf
    simp at hf

/-- C4: section search scores each section with 10 times the
case-insensitive substring count of the query in the title plus the count
in the content, keeps only positive scores in insertion order, sorts them
descending by relevance with a stable sort (equal-relevance results keep
their insertion order: filtering any relevance value gives the pre-sort
sublist unchanged), and truncates to `max_results`; in particular, with
one title hit against one content hit the title-hit section ranks first. -/
theorem c4_search_relevance_ordering :
    (∀ (sections : List Section) (query : String) (m : Nat),
      (search_rf_documentation_core sections query m).results
          = (sortByRelevance (scoredResults sections query)).take m ∧
      (search_rf_documentation_core sections query m).total_matches
          = (scoredResults sections query).length ∧
      (sortByRelevance (scoredResults sections query)).Perm
          (scoredResults sections query) ∧
      List.Pairwise (fun a b => b.relevance ≤ a.relevance)
          (sortByRelevance (scoredResults sections query)) ∧
      (∀ v : Nat,
        (sortByRelevance (scoredResults sections query)).filter
            (fun a => a.relevance = v)
          = (scoredResults sections query).filter (fun a => a.relevance = v)) ∧
      (∀ r ∈ scoredResults sections query, 0 < r.relevance) ∧
      (∀ r ∈ scoredResults sections query, ∃ s ∈ sections,
        r = formatSection
          (countSub (pyLower s.title.data) (pyLower query.data) * 10
            + countSub (pyLower s.content.data) (pyLower query.data)) s ∧
        (0 < countSub (pyLower s.title.data) (pyLower query.data) ∨
          0 < countSub (pyLower s.content.data) (pyLower query.data)))) ∧
    (search_rf_documentation_core [c4SecContentHit, c4SecTitleHit] ("library") 10).results.map
        (fun r => r.title) = [("Library Basics"), ("Overview")] := by
  constructor
  · intro sections query m
    refine ⟨rfl, ?_, ?_, ?_, ?_, ?_, ?_⟩
    · exact (List.perm_insertionSort relDescOrder (scoredResults sections query)).length_eq
    · exact List.perm_insertionSort relDescOrder (scoredResults sections query)
    · exact List.sorted_insertionSort relDescOrder (scoredResults sections query)
    · intro v
      exact insertionSort_filter_key v (scoredResults sections query)
    · intro r hr
      obtain ⟨s, _, hfmt, hc⟩ := scoredResults_mem hr
      rw [hfmt]
      simp only [formatSection]
      omega
    · intro r hr
      exact scoredResults_mem hr
  · decide

/-- Witness for C4: the ordering component applied at the two-section
example. -/
theorem c4_search_relevance_ordering_witness :
    List.Pairwise (fun a b => b.relevance ≤ a.relevance)
      (sortByRelevance (scoredResults [c4SecContentHit, c4SecTitleHit] ("library"))) :=
  (c4_search_relevance_ordering.1 [c4SecContentHit, c4SecTitleHit] ("library") 10).2.2.2.1

theorem scoredResults_empty_query_length :
    ∀ sections : List Section, (scoredResults sections ("")).length = sections.length := by
  intro sections
  induction sections with
  | nil => rfl
  | cons s tl ih =>
    have hc : 0 < countSub (pyLower s.title.data) (pyLower (("" : String)).data) := by
      simp [countSub, pyLower]
    rw [scoredResults] at ih ⊢
    rw [List.filterMap_cons, if_pos (Or.inl hc)]
    simp [ih]

/-- C10: the empty query matches every section — the substring count of
the empty pattern is always positive, `total_matches` equals the number of
indexed sections, and every scored section has relevance at least 11. -/
theorem c10_empty_query_matches_all :
    (∀ s : List Char, 0 < countSub s []) ∧
    (∀ (sections : List Section) (m : Nat),
      (search_rf_documentation_core sections ("") m).total_matches = sections.length) ∧
    (∀ sections : List Section, ∀ r ∈ scoredResults sections (""), 11 ≤ r.relevance) := by
  refine ⟨?_, ?_, ?_⟩
  · intro s
    simp [countSub]
  · intro sections m
    have h1 : (search_rf_documentation_core sections ("") m).total_matches
        = (scoredResults sections ("")).length :=
      (List.perm_insertionSort relDescOrder (scoredResults sections (""))).length_eq
    rw [h1, scoredResults_empty_query_length]
  · intro sections r hr
    obtain ⟨s, _, hfmt, _⟩ := scoredResults_mem hr
    have he : pyLower (("" : String).data) = [] := rfl
    rw [hfmt]
    simp only [formatSection, he]
    have h1 : 0 < countSub (pyLower s.title.data) [] := by simp [countSub]
    have h2 : 0 < countSub (pyLower s.content.data) [] := by simp [countSub]
    omega

/-- Witness for C10: both sample sections match the empty query. -/
theorem c10_empty_query_matches_all_witness :
    (search_rf_documentation_core [c4SecContentHit, c4SecTitleHit] ("") 10).total_matches = 2 := by
  have h := c10_empty_query_matches_all.2.1 [c4SecContentHit, c4SecTitleHit] 10
  simpa using h

/-! ### Keyword lookup lemmas (C5) -/

theorem lookupScanKeywords_found {lib target : String} :
    ∀ (kws : List (String × KeywordRecord)) (r : LookupResult),
      lookupScanKeywords lib target kws = some r →
      ∃ k v, (k, v) ∈ kws ∧ normalizeKwName k = target ∧ lookupKeywordName r = some k
  | [], r, h => by simp [lookupScanKeywords] at h
  | (k, v) :: tl, r, h => by
    rw [lookupScanKeywords] at h
    by_cases hk : normalizeKwName k = target
    · rw [if_pos hk, Option.some.injEq] at h
      exact ⟨k, v, by simp, hk, by rw [← h]; rfl⟩
    · rw [if_neg hk] at h
      obtain ⟨k2, v2, hmem, hn, hname⟩ := lookupScanKeywords_found tl r h
      exact ⟨k2, v2, by simp [hmem], hn, hname⟩

theorem lookupScanKeywords_hit {lib target k : String} {v : KeywordRecord} :
    ∀ (kws : List (String × KeywordRecord)), (k, v) ∈ kws → normalizeKwName k = target →
      ∃ r, lookupScanKeywords lib target kws = some r
  | [], hmem, _ => by simp at hmem
  | (k2, v2) :: tl, hmem, hn => by
    rw [lookupScanKeywords]
    by_cases hk : normalizeKwName k2 = target
    · exact ⟨_, by rw [if_pos hk]⟩
    · rw [if_neg hk]
      rcases List.mem_cons.mp hmem with heq | hmem2
      · exfalso
        apply hk
        have : k2 = k := by
          have := heq
          simp at this
          exact this.1.symm
        rw [this, hn]
      · exact lookupScanKeywords_hit tl hmem2 hn

theorem lookupScanLibraries_found {target : String} :
    ∀ (idx : List (String × List (String × KeywordRecord))) (r : LookupResult),
      lookupScanLibraries target idx = some r →
      ∃ lib kws k v, (lib, kws) ∈ idx ∧ (k, v) ∈ kws ∧
        normalizeKwName k = target ∧ lookupKeywordName r = some k
  | [], r, h => by simp [lookupScanLibraries] at h
  | (lib, kws) :: tl, r, h => by
    rw [lookupScanLibraries] at h
    rcases hs : lookupScanKeywords lib target kws with _ | r2
    · rw [hs] at h
      obtain ⟨lib2, kws2, k2, v2, hl, hk, hn, hname⟩ := lookupScanLibraries_found tl r h
      exact ⟨lib2, kws2, k2, v2, by simp [hl], hk, hn, hname⟩
    · rw [hs] at h
      obtain ⟨k2, v2, hk, hn, hname⟩ := lookupScanKeywords_found kws r2 hs
      have hr : r = r2 := by
        have := h
        simp at this
        exact this.symm
      exact ⟨lib, kws, k2, v2, by simp, hk, hn, hr ▸ hname⟩

theorem lookupScanLibraries_hit {target lib k : String}
    {kws : List (String × KeywordRecord)} {v : KeywordRecord} :
    ∀ (idx : List (String × List (String × KeywordRecord))),
      (lib, kws) ∈ idx → (k, v) ∈ kws → normalizeKwName k = target →
      ∃ r, lookupScanLibraries target idx = some r
  | [], hmem, _, _ => by simp at hmem
  | (lib2, kws2) :: tl, hmem, hkmem, hn => by
    rw [lookupScanLibraries]
    rcases hs : lookupScanKeywords lib2 target kws2 with _ | r2
    · rcases List.mem_cons.mp hmem with heq | hmem2
      · exfalso
        have hk2 : kws2 = kws := by
          have := heq
          simp at this
          exact this.2.symm
        rw [hk2] at hs
        obtain ⟨r3, hr3⟩ := @lookupScanKeywords_hit lib2 target _ _ kws hkmem hn
        rw [hr3] at hs
        simp at hs
      · exact lookupScanLibraries_hit tl hmem2 hkmem hn
    · exact ⟨r2, rfl⟩

/-- Counterexample for C5: in an index whose earlier library `A` stores
`Run_Keyword` and whose later library `B` stores `Run Keyword`, the query
`run_keyword` resolves to the earlier record `Run_Keyword` — not to the
stored record named `Run Keyword` the claim designates. -/
theorem c5_lookup_counterexample :
    (("B"), [(("Run Keyword"), mkPlainRec ("Run Keyword") ("B"))]) ∈ c5Idx ∧
    lookupKeywordName (lookupKeywordIn ("run_keyword") none c5Idx)
      = some ("Run_Keyword") ∧
    (("Run_Keyword") : String) ≠ ("Run Keyword") := by
  refine ⟨by decide, by decide, by decide⟩

/-- C5 (amended): lookup normalizes both the query and every candidate by
lower-casing and mapping underscores and hyphens to spaces and compares
for equality, so `run_keyword`, `Run-Keyword` and `run keyword` are one
query; in an index containing a record stored as `Run Keyword` in which no
other record normalizes to `run keyword`, all three resolve to that stored
record; when a library name is given, only that library's map is searched
(with a library-not-found error when it is absent); otherwise libraries
are searched in index iteration order and the first match is returned —
which is why a differently-named earlier record with the same normalized
name would be returned instead (see the counterexample). -/
theorem c5_lookup_normalization
    (idx : List (String × List (String × KeywordRecord)))
    (hpresent : ∃ p ∈ idx, ∃ rec, ((("Run Keyword") : String), rec) ∈ p.2)
    (hunique : ∀ p ∈ idx, ∀ q ∈ p.2,
      normalizeKwName q.1 = ("run keyword") → q.1 = ("Run Keyword")) :
    (normalizeKwName ("run_keyword") = ("run keyword") ∧
     normalizeKwName ("Run-Keyword") = ("run keyword") ∧
     normalizeKwName ("run keyword") = ("run keyword")) ∧
    lookupKeywordIn ("run_keyword") none idx = lookupKeywordIn ("Run-Keyword") none idx ∧
    lookupKeywordIn ("run_keyword") none idx = lookupKeywordIn ("run keyword") none idx ∧
    lookupKeywordName (lookupKeywordIn ("run_keyword") none idx) = some ("Run Keyword") ∧
    (∀ (n lib : String), alookup lib idx = none →
      lookupKeywordIn n (some lib) idx
        = .libError ((("Library '")) ++ lib ++ ("' not found")) (idx.map Prod.fst)) ∧
    (∀ (n lib : String) (kws : List (String × KeywordRecord)),
      alookup lib idx = some kws →
      lookupKeywordIn n (some lib) idx = lookupKeywordIn n none [(lib, kws)]) := by
  obtain ⟨p, hp, rec, hrec⟩ := hpresent
  rcases p with ⟨plib, pkws⟩
  obtain ⟨r, hr⟩ := @lookupScanLibraries_hit ("run keyword") _ _ _ _ idx hp hrec (by decide)
  have e1 : normalizeKwName ("run_keyword") = ("run keyword") := by decide
  have e2 : normalizeKwName ("Run-Keyword") = ("run keyword") := by decide
  have e3 : normalizeKwName ("run keyword") = ("run keyword") := by decide
  have hval : ∀ n : String, normalizeKwName n = ("run keyword") →
      lookupKeywordIn n none idx = r := by
    intro n hn
    simp only [lookupKeywordIn, hn, hr]
  have hname : lookupKeywordName r = some ("Run Keyword") := by
    obtain ⟨lib2, kws2, k2, v2, hl2, hk2, hn2, hname2⟩ :=
      lookupScanLibraries_found idx r hr
    have : k2 = ("Run Keyword") := hunique (lib2, kws2) hl2 (k2, v2) hk2 hn2
    rw [hname2, this]
  refine ⟨⟨e1, e2, e3⟩, ?_, ?_, ?_, ?_, ?_⟩
  · rw [hval _ e1, hval _ e2]
  · rw [hval _ e1, hval _ e3]
  · rw [hval _ e1, hname]
  · intro n lib h
    simp only [lookupKeywordIn, h]
  · intro n lib kws h
    simp only [lookupKeywordIn, h, lookupScanLibraries]
    rcases hs : lookupScanKeywords lib (normalizeKwName n) kws with _ | r2 <;> simp [hs]

/-- Witness for C5 on a one-library index storing `Run Keyword`. -/
theorem c5_lookup_normalization_witness :
    lookupKeywordName (lookupKeywordIn ("run_keyword") none c5IdxW)
      = some ("Run Keyword") :=
  (c5_lookup_normalization c5IdxW
    ⟨(("BuiltIn"), [(("Run Keyword"), mkPlainRec ("Run Keyword") ("BuiltIn"))]),
      by decide, mkPlainRec ("Run Keyword") ("BuiltIn"), by decide⟩
    (by decide)).2.2.2.1

theorem alookup_dinsert_self {β : Type} (k : String) (v : β) (m : List (String × β)) :
    alookup k (dinsert k v m) = some v := by
  induction m with
  | nil => simp [dinsert, alookup]
  | cons p tl ih =>
    rcases p with ⟨pk, pv⟩
    by_cases hp : pk = k
    · subst hp
      simp [dinsert, alookup]
    · simp [dinsert, alookup, hp, ih]

theorem alookup_dinsert_ne {β : Type} {k2 k : String} (h : k2 ≠ k) (v : β)
    (m : List (String × β)) : alookup k2 (dinsert k v m) = alookup k2 m := by
  have hne : k ≠ k2 := fun he => h he.symm
  induction m with
  | nil => simp [dinsert, alookup, hne]
  | cons p tl ih =>
    rcases p with ⟨pk, pv⟩
    by_cases hp : pk = k
    · subst hp
      simp [dinsert, alookup, hne]
    · simp [dinsert, alookup, hp, ih]

theorem dinsert_keys_sub {β : Type} (k x : String) (v : β) :
    ∀ (m : List (String × β)),
      x ∈ (dinsert k v m).map Prod.fst → x = k ∨ x ∈ m.map Prod.fst := by
  intro m
  induction m with
  | nil =>
    intro hx
    simp [dinsert] at hx
    exact Or.inl hx
  | cons p tl ih =>
    rcases p with ⟨pk, pv⟩
    intro hx
    by_cases hp : pk = k
    · subst hp
      have hd2 : dinsert pk v ((pk, pv) :: tl) = (pk, v) :: tl := by simp [dinsert]
      rw [hd2, List.map_cons] at hx
      rcases List.mem_cons.mp hx with hx | hx
      · exact Or.inl hx
      · exact Or.inr (by rw [List.map_cons]; exact List.mem_cons.mpr (Or.inr hx))
    · have hd2 : dinsert k v ((pk, pv) :: tl) = (pk, pv) :: dinsert k v tl := by
        simp [dinsert, hp]
      rw [hd2, List.map_cons] at hx
      rcases List.mem_cons.mp hx with hx | hx
      · exact Or.inr (by rw [List.map_cons]; exact List.mem_cons.mpr (Or.inl hx))
      · rcases ih hx with h2 | h2
        · exact Or.inl h2
        · exact Or.inr (by rw [List.map_cons]; exact List.mem_cons.mpr (Or.inr h2))

theorem dinsert_keys_nodup {β : Type} (k : String) (v : β) :
    ∀ (m : List (String × β)),
      (m.map Prod.fst).Nodup → ((dinsert k v m).map Prod.fst).Nodup := by
  intro m
  induction m with
  | nil =>
    intro _
    simp [dinsert]
  | cons p tl ih =>
    rcases p with ⟨pk, pv⟩
    intro h
    rw [List.map_cons, List.nodup_cons] at h
    by_cases hp : pk = k
    · subst hp
      have hd2 : dinsert pk v ((pk, pv) :: tl) = (pk, v) :: tl := by simp [dinsert]
      rw [hd2, List.map_cons, List.nodup_cons]
      exact h
    · have hd2 : dinsert k v ((pk, pv) :: tl) = (pk, pv) :: dinsert k v tl := by
        simp [dinsert, hp]
      rw [hd2, List.map_cons, List.nodup_cons]
      refine ⟨fun hmem => ?_, ih h.2⟩
      rcases dinsert_keys_sub k pk v tl hmem with h2 | h2
      · exact hp h2
      · exact h.1 h2

theorem buildKeyword_skip {lib : String} {r : Json}
    (h : buildKeyword lib r = .ok none) : recName r = none := by
  match r with
  | .null | .bool _ | .num _ | .str _ | .arr _ => simp [buildKeyword] at h
  | .obj o =>
    simp only [recName]
    simp only [buildKeyword] at h
    rcases hn : jgetD o (['n', 'a', 'm', 'e']) (.str []) with _ | b | n | s | a2 | o2 <;>
      rw [hn] at h
    case str =>
      by_cases hs : s = []
      · simp [hs]
      · exfalso
        rw [if_pos (by simp [jsonTruthy, hs])] at h
        rcases ha : jgetD o (['a', 'r', 'g', 's']) (.arr .nil) with _ | _ | _ | _ | items | _ <;>
          rw [ha] at h <;> try simp at h
        rcases hp : argsParts items with e | parts <;> rw [hp] at h <;> try simp at h
        rcases hd : jgetD o (['s', 'h', 'o', 'r', 't', 'd', 'o', 'c']) (.str [])
            with _ | _ | _ | dl | _ | _ <;>
          rw [hd] at h <;> simp at h

theorem buildKeyword_entry {lib : String} {r : Json} {k : String} {rec : KeywordRecord}
    (h : buildKeyword lib r = .ok (some (k, rec))) : recName r = some k ∧ k ≠ ("") := by
  match r with
  | .null | .bool _ | .num _ | .str _ | .arr _ => simp [buildKeyword] at h
  | .obj o =>
    simp only [recName]
    simp only [buildKeyword] at h
    rcases hn : jgetD o (['n', 'a', 'm', 'e']) (.str []) with _ | b | n | s | a2 | o2 <;>
      rw [hn] at h
    case null => simp [jsonTruthy] at h
    case bool => cases b <;> simp [jsonTruthy] at h
    case num =>
      by_cases hz : n = 0
      · subst hz
        simp [jsonTruthy] at h
      · rw [if_pos (by simp [jsonTruthy, hz])] at h
        simp at h
    case arr => cases a2 <;> simp [jsonTruthy] at h
    case obj => cases o2 <;> simp [jsonTruthy] at h
    case str =>
      by_cases hs : s = []
      · rw [if_neg (by simp [jsonTruthy, hs])] at h
        simp at h
      · rw [if_pos (by simp [jsonTruthy, hs])] at h
        rcases ha : jgetD o (['a', 'r', 'g', 's']) (.arr .nil) with _ | _ | _ | _ | items | _ <;>
          rw [ha] at h <;> try simp at h
        rcases hp : argsParts items with e | parts <;> rw [hp] at h <;> try simp at h
        rcases hd : jgetD o (['s', 'h', 'o', 'r', 't', 'd', 'o', 'c']) (.str [])
            with _ | _ | _ | dl | _ | _ <;>
          rw [hd] at h <;> try simp at h
        obtain ⟨hk, _⟩ := h
        show (if s = [] then none else some (String.mk s)) = some k ∧ k ≠ ("")
        constructor
        · rw [if_neg hs, hk]
        · rw [← hk]
          intro he
          apply hs
          have h2 : (String.mk s).data = ("" : String).data := by rw [he]
          simpa using h2

theorem normLoop_spec (lib : String) (records : List Json) :
    ∀ (acc kws : List (String × KeywordRecord)),
      normLoop lib acc records = .ok kws →
      ((acc.map Prod.fst).Nodup → (kws.map Prod.fst).Nodup) ∧
      ((∀ x ∈ acc.map Prod.fst, x ≠ ("")) → ∀ x ∈ kws.map Prod.fst, x ≠ ("")) ∧
      (∀ name : String, name ≠ ("") →
        (records.filter (fun r2 => recName r2 = some name) = [] →
          alookup name kws = alookup name acc) ∧
        (∀ r, (records.filter (fun r2 => recName r2 = some name)).getLast? = some r →
          ∃ rec, buildKeyword lib r = .ok (some (name, rec)) ∧
            alookup name kws = some rec)) := by
  induction records with
  | nil =>
    intro acc kws h
    simp [normLoop] at h
    subst h
    refine ⟨id, fun h2 => h2, fun name _ => ⟨fun _ => rfl, fun r hr => ?_⟩⟩
    simp at hr
  | cons r rest ih =>
    intro acc kws h
    rw [normLoop] at h
    rcases hb : buildKeyword lib r with e | ov
    · rw [hb] at h; simp at h
    · rw [hb] at h
      rcases ov with _ | ⟨k, rec⟩
      · have hrn := buildKeyword_skip hb
        obtain ⟨ih1, ih2, ih3⟩ := ih acc kws h
        refine ⟨ih1, ih2, fun name hname => ?_⟩
        have hfil : (r :: rest).filter (fun r2 => recName r2 = some name)
            = rest.filter (fun r2 => recName r2 = some name) := by
          simp [List.filter_cons, hrn]
        rw [hfil]
        exact ih3 name hname
      · obtain ⟨hrn, hk⟩ := buildKeyword_entry hb
        obtain ⟨ih1, ih2, ih3⟩ := ih (dinsert k rec acc) kws h
        refine ⟨fun hnd => ih1 (dinsert_keys_nodup k rec acc hnd),
          fun hne => ih2 (fun x hx => ?_), fun name hname => ?_⟩
        · rcases dinsert_keys_sub k x rec acc hx with h2 | h2
          · exact h2 ▸ hk
          · exact hne x h2
        · by_cases hnk : name = k
          · subst hnk
            have hfil : (r :: rest).filter (fun r2 => recName r2 = some name)
                = r :: rest.filter (fun r2 => recName r2 = some name) := by
              simp [List.filter_cons, hrn]
            constructor
            · intro hfe
              rw [hfil] at hfe
              simp at hfe
            · intro r2 hlast
              rw [hfil] at hlast
              rcases hre : rest.filter (fun r2 => recName r2 = some name) with _ | ⟨a, tla⟩
              · rw [hre] at hlast
                simp at hlast
                subst hlast
                refine ⟨rec, hb, ?_⟩
                rw [(ih3 name hname).1 hre]
                exact alookup_dinsert_self name rec acc
              · rw [hre, List.getLast?_cons_cons] at hlast
                exact (ih3 name hname).2 r2 (by rw [hre]; exact hlast)
          · have hfil : (r :: rest).filter (fun r2 => recName r2 = some name)
                = rest.filter (fun r2 => recName r2 = some name) := by
              simp [List.filter_cons, hrn]
              intro he
              exact absurd he.symm hnk
            constructor
            · intro hfe
              rw [hfil] at hfe
              rw [(ih3 name hname).1 hfe]
              exact alookup_dinsert_ne hnk rec acc
            · intro r2 hlast
              rw [hfil] at hlast
              exact (ih3 name hname).2 r2 hlast

/-- C6: for every decoded library record list on which the normalizer
succeeds, the produced mapping has keys unique by name and free of the
empty name; for every non-empty name, when no input record carries that
name there is no entry, and when some do, the entry holds exactly the
record built from the last such input record (last-write-wins); records
with an empty or missing name are skipped entirely. -/
theorem c6_normalizer_last_write_wins (lib : String) (records : List Json)
    (kws : List (String × KeywordRecord))
    (h : normalizeKeywords lib records = .ok kws) :
    (kws.map Prod.fst).Nodup ∧
    (∀ x ∈ kws.map Prod.fst, x ≠ ("")) ∧
    (∀ name : String, name ≠ ("") →
      (records.filter (fun r2 => recName r2 = some name) = [] →
        alookup name kws = none) ∧
      (∀ r, (records.filter (fun r2 => recName r2 = some name)).getLast? = some r →
        ∃ rec, buildKeyword lib r = .ok (some (name, rec)) ∧
          alookup name kws = some rec)) := by
  obtain ⟨h1, h2, h3⟩ := normLoop_spec lib records [] kws h
  exact ⟨h1 (by simp), h2 (by simp), fun name hn =>
    ⟨fun hf => by rw [(h3 name hn).1 hf]; rfl, (h3 name hn).2⟩⟩

/-- Witness for C6 on a concrete record list with a duplicate name and an
empty-name record: the output keys are unique and the `Dup` entry holds
the later record's values. -/
theorem c6_normalizer_last_write_wins_witness :
    (c6Kws.map Prod.fst).Nodup ∧ alookup ("Dup") c6Kws = some c6RecLater := by
  obtain ⟨h1, _, h3⟩ :=
    c6_normalizer_last_write_wins ("L") c6Recs c6Kws rfl
  refine ⟨h1, ?_⟩
  obtain ⟨rec, hbk, hlk⟩ := (h3 ("Dup") (by decide)).2 c6Rec3 (by decide)
  have h5 : buildKeyword ("L") c6Rec3 = .ok (some (("Dup"), c6RecLater)) := rfl
  rw [h5] at hbk
  have h6 : rec = c6RecLater := by
    have := hbk
    simp at this
    exact this.symm
  rw [← h6]
  exact hlk

/-! ### Query-layer data-flow theorems (C2) -/

/-- Counterexample for C2: two states with identical Section Index and
Keyword Index artifacts but different raw cached `BuiltIn` documents make
`get_library_keywords` return different results — the per-library keyword
listing re-parses the raw document instead of reading the artifacts. -/
theorem c2_raw_reparse_counterexample :
    (c2State ("Alpha")).indexFile = (c2State ("Beta")).indexFile ∧
    (c2State ("Alpha")).keywordsIndex = (c2State ("Beta")).keywordsIndex ∧
    (get_library_keywords ("BuiltIn") none noRegex deadNet ("t1") (c2State ("Alpha"))).1
      ≠ (get_library_keywords ("BuiltIn") none noRegex deadNet ("t1") (c2State ("Beta"))).1 := by
  refine ⟨rfl, rfl, by decide⟩

/-- C2 (amended): section search, the all-keyword listing and keyword
lookup are functions of the persisted artifacts alone — with the relevant
artifact present they never fetch, never re-parse raw documents and leave
the state unchanged, and when the Keyword Index artifact is missing the
all-keyword listing and keyword lookup trigger exactly one full rebuild
and continue from its resulting state; per-library keyword listing is the
exception, re-parsing the raw library document on every call (see the
counterexample): its answer is a function of that raw document, it leaves
the state unchanged whenever the raw document is cached, and it triggers
a rebuild when the raw document is missing. -/
theorem c2_queries_artifact_only :
    (∀ (st1 st2 : ServerState) (query : String) (m : Nat),
      st1.indexFile = st2.indexFile →
      search_rf_documentation query m st1 = search_rf_documentation query m st2) ∧
    (∀ (st : ServerState) (idx : KeywordIndexArtifact) (pat : Option String)
        (reng : RegexEngine) (net : Network) (now : String),
      st.keywordsIndex = some idx →
      (get_all_keywords pat reng net now st).2 = st) ∧
    (∀ (st1 st2 : ServerState) (idx : KeywordIndexArtifact) (pat : Option String)
        (reng : RegexEngine) (net1 net2 : Network) (now1 now2 : String),
      st1.keywordsIndex = some idx → st2.keywordsIndex = some idx →
      (get_all_keywords pat reng net1 now1 st1).1
        = (get_all_keywords pat reng net2 now2 st2).1) ∧
    (∀ (st : ServerState) (idx : KeywordIndexArtifact) (kw : String)
        (lib : Option String) (net : Network) (now : String),
      st.keywordsIndex = some idx →
      (get_keyword_documentation kw lib net now st).2 = st) ∧
    (∀ (st1 st2 : ServerState) (idx : KeywordIndexArtifact) (kw : String)
        (lib : Option String) (net1 net2 : Network) (now1 now2 : String),
      st1.keywordsIndex = some idx → st2.keywordsIndex = some idx →
      (get_keyword_documentation kw lib net1 now1 st1).1
        = (get_keyword_documentation kw lib net2 now2 st2).1) ∧
    (∀ (st : ServerState) (pat : Option String) (reng : RegexEngine)
        (net : Network) (now : String),
      st.keywordsIndex = none →
      (get_all_keywords pat reng net now st).2
        = (fetch_rf_documentation false net now st).state) ∧
    (∀ (st : ServerState) (kw : String) (lib : Option String)
        (net : Network) (now : String),
      st.keywordsIndex = none →
      (get_keyword_documentation kw lib net now st).2
        = (fetch_rf_documentation false net now st).state) ∧
    (∀ (st : ServerState) (lib : String) (pat : Option String) (reng : RegexEngine)
        (net : Network) (now : String) (c : List Char),
      st.libFiles lib = some c →
      (get_library_keywords lib pat reng net now st).2 = st) ∧
    (∀ (st1 st2 : ServerState) (lib : String) (pat : Option String)
        (reng : RegexEngine) (net1 net2 : Network) (now1 now2 : String) (c : List Char),
      st1.libFiles lib = some c → st2.libFiles lib = some c →
      (get_library_keywords lib pat reng net1 now1 st1).1
        = (get_library_keywords lib pat reng net2 now2 st2).1) ∧
    (∀ (st : ServerState) (lib : String) (pat : Option String) (reng : RegexEngine)
        (net : Network) (now : String),
      lib ∈ STANDARD_LIBRARIES → st.libFiles lib = none →
      (get_library_keywords lib pat reng net now st).2
        = (fetch_rf_documentation false net now st).state) := by
  refine ⟨?_, ?_, ?_, ?_, ?_, ?_, ?_, ?_, ?_, ?_⟩
  · intro st1 st2 q m h
    simp only [search_rf_documentation, h]
  · intro st idx pat reng net now h
    simp only [get_all_keywords, h]
    rcases pat with _ | p
    · rfl
    · rcases hc : reng.compile p with _ | mtr <;> simp only [hc] <;> rfl
  · intro st1 st2 idx pat reng net1 net2 now1 now2 h1 h2
    simp only [get_all_keywords, h1, h2]
    rcases pat with _ | p
    · rfl
    · rcases hc : reng.compile p with _ | mtr <;> simp only [hc] <;> rfl
  · intro st idx kw lib net now h
    simp only [get_keyword_documentation, h]
    rfl
  · intro st1 st2 idx kw lib net1 net2 now1 now2 h1 h2
    simp only [get_keyword_documentation, h1, h2]
    rfl
  · intro st pat reng net now h
    simp only [get_all_keywords, h]
    repeat' (first | split | dsimp only)
  · intro st kw lib net now h
    simp only [get_keyword_documentation, h]
    repeat' (first | split | dsimp only)
  · intro st lib pat reng net now c h
    simp only [get_library_keywords]
    by_cases hmem : lib ∉ STANDARD_LIBRARIES
    · rw [if_pos hmem]
    · rw [if_neg hmem]
      rw [h]
      repeat' (first | dsimp only | split)
  · intro st1 st2 lib pat reng net1 net2 now1 now2 c h1 h2
    simp only [get_library_keywords]
    by_cases hmem : lib ∉ STANDARD_LIBRARIES
    · rw [if_pos hmem, if_pos hmem]
    · rw [if_neg hmem, if_neg hmem]
      rw [h1, h2]
      dsimp only
      rw [if_neg (fun hff => Bool.noConfusion hff),
        if_neg (fun hff => Bool.noConfusion hff)]
      rw [h1, h2]
      dsimp only
      rcases hp : parseLibraryKeywords lib c with kws | e
      · dsimp only
        rcases pat with _ | p
        · rfl
        · dsimp only
          rcases hcp : reng.compile p with _ | matcher <;> rfl
      · rfl
  · intro st lib pat reng net now hmem hnone
    simp only [get_library_keywords]
    rw [if_neg (not_not_intro hmem)]
    rw [hnone]
    repeat' (first | dsimp only | split)

/-- Witness for C2 (amended) at the two concrete states of the
counterexample: the artifact-reading keyword listing agrees even though
the raw documents differ. -/
theorem c2_queries_artifact_only_witness :
    (get_all_keywords none noRegex deadNet ("t1") (c2State ("Alpha"))).1
      = (get_all_keywords none noRegex deadNet ("t2") (c2State ("Beta"))).1 :=
  c2_queries_artifact_only.2.2.1 (c2State ("Alpha")) (c2State ("Beta")) c2KwIdx none
    noRegex deadNet deadNet ("t1") ("t2") rfl rfl

/-! ### Counterexamples for the rebuild claims (C3, C9) -/

/-- Counterexample for C3: with every library cached except `Telnet`,
whose fetch fails with no cached copy, the rebuild report has overall
success and the `Telnet` key is absent from the report's libraries map —
there is no entry with `success = false` for it. -/
theorem c3_missing_entry_counterexample :
    (fetch_rf_documentation false deadNet ("t1") c3State).results.success = true ∧
    alookup ("Telnet")
      (fetch_rf_documentation false deadNet ("t1") c3State).results.libraries = none := by
  refine ⟨by decide, by decide⟩

/-- Counterexample for C9: when no library parses successfully in a run
(every cache slot empty, every fetch failing), the Keyword Index artifact
is not overwritten — the prior run's artifact, `BuiltIn` entry included,
survives untouched. -/
theorem c9_stale_artifact_counterexample :
    (fetch_rf_documentation false deadNet ("t1") c9State).results.success = true ∧
    (fetch_rf_documentation false deadNet ("t1") c9State).results.keywords_index_written
      = false ∧
    (fetch_rf_documentation false deadNet ("t1") c9State).state.keywordsIndex
      = some c9Prior ∧
    alookup ("BuiltIn") c9Prior.libraries ≠ none := by
  refine ⟨by decide, by decide, ?_, by decide⟩
  rfl



/-! ### The rebuild under a fully populated cache (C8) -/

theorem processLibraries_cached (net : Network) :
    ∀ (libs : List String) (st : ServerState) (acc : LibAcc),
      (∀ lib ∈ libs, st.libFiles lib ≠ none) →
      processLibraries false net libs st acc
        = (st, { acc with
            libraries := acc.libraries ++ cachedReport st.libFiles libs,
            all_keywords := acc.all_keywords ++ cachedKeywords st.libFiles libs,
            total_keywords := acc.total_keywords
              + ((cachedKeywords st.libFiles libs).map (fun p => p.2.length)).sum })
  | [], st, acc, _ => by
    simp [processLibraries, cachedReport, cachedKeywords]
  | lib :: rest, st, acc, h => by
    have hfile : st.libFiles lib ≠ none := h lib (by simp)
    rcases hc : st.libFiles lib with _ | c
    · exact absurd hc hfile
    · have hstep : processLibrary false net st acc lib
          = (match parseLibraryKeywords lib c with
              | .ok kws => (st, { acc with
                  libraries := acc.libraries
                    ++ [(lib, { success := true, total_keywords := kws.length })],
                  all_keywords := acc.all_keywords ++ [(lib, kws)],
                  total_keywords := acc.total_keywords + kws.length })
              | .err _ => (st, { acc with
                  libraries := acc.libraries
                    ++ [(lib, { success := false, total_keywords := 0 })] })) := by
        simp only [processLibrary, hc]
        simp
        rw [hc]
      rw [processLibraries, hstep]
      rcases hp : parseLibraryKeywords lib c with kws | e
      · dsimp only
        rw [processLibraries_cached net rest st _ (fun l hl => h l (by simp [hl]))]
        have hcr : cachedReport st.libFiles (lib :: rest)
            = (lib, { success := true, total_keywords := kws.length })
              :: cachedReport st.libFiles rest := by
          simp only [cachedReport, hc, hp]
        have hck : cachedKeywords st.libFiles (lib :: rest)
            = (lib, kws) :: cachedKeywords st.libFiles rest := by
          simp only [cachedKeywords, hc, hp]
        rw [hcr, hck]
        simp [List.append_assoc]
        omega
      · dsimp only
        rw [processLibraries_cached net rest st _ (fun l hl => h l (by simp [hl]))]
        have hcr : cachedReport st.libFiles (lib :: rest)
            = (lib, { success := false, total_keywords := 0 })
              :: cachedReport st.libFiles rest := by
          simp only [cachedReport, hc, hp]
        have hck : cachedKeywords st.libFiles (lib :: rest)
            = cachedKeywords st.libFiles rest := by
          simp only [cachedKeywords, hc, hp]
        rw [hcr, hck]
        simp [List.append_assoc]

theorem fetch_cached (net : Network) (now : String) (st : ServerState)
    (doc : List HtmlEvent) (hdoc : st.docsFile = some doc)
    (hlibs : ∀ lib ∈ STANDARD_LIBRARIES, st.libFiles lib ≠ none) :
    fetch_rf_documentation false net now st
      = { results :=
            { version := RF_VERSION, files_downloaded := [], user_guide := .cached,
              indexing := true,
              libraries := cachedReport st.libFiles STANDARD_LIBRARIES,
              keywords_index_written :=
                !(cachedKeywords st.libFiles STANDARD_LIBRARIES).isEmpty,
              success := true },
          state :=
            if (cachedKeywords st.libFiles STANDARD_LIBRARIES).isEmpty then
              { st with indexFile := some (
                  { version := RF_VERSION, parsed_at := now,
                    total_sections := (getSections doc).length,
                    sections := getSections doc }) }
            else
              { st with
                indexFile := some (
                  { version := RF_VERSION, parsed_at := now,
                    total_sections := (getSections doc).length,
                    sections := getSections doc }),
                keywordsIndex := some (
                  { version := RF_VERSION, parsed_at := now,
                    total_libraries := (cachedKeywords st.libFiles STANDARD_LIBRARIES).length,
                    total_keywords :=
                      ((cachedKeywords st.libFiles STANDARD_LIBRARIES).map
                        (fun p => p.2.length)).sum,
                    libraries := cachedKeywords st.libFiles STANDARD_LIBRARIES }) },
          attempted := [] } := by
  simp only [fetch_rf_documentation, fetchPrimary, indexPrimary, writeKwIndex]
  rw [if_neg (by simp [hdoc] : ¬ (false = true ∨ st.docsFile = none))]
  dsimp only
  rw [hdoc]
  dsimp only
  rw [processLibraries_cached net STANDARD_LIBRARIES
    ({ docsFile := some doc, libFiles := st.libFiles,
       indexFile := some (
         { version := RF_VERSION, parsed_at := now,
           total_sections := (getSections doc).length, sections := getSections doc }),
       keywordsIndex := st.keywordsIndex }) _ hlibs]
  dsimp only
  simp [ugSuccess]

theorem kwEquivApartTimestamp_refl (x : Option KeywordIndexArtifact) :
    kwEquivApartTimestamp x x := by
  cases x <;> simp [kwEquivApartTimestamp]

/-- C8: with every cache slot populated before the first call, a second
`rebuild(force_refresh=false)` performs zero network fetches, and the two
runs produce Section Index and Keyword Index artifacts identical in every
field apart from `parsed_at`. -/
theorem c8_idempotent_rebuild (net : Network) (st : ServerState) (t1 t2 : String)
    (doc : List HtmlEvent) (hdoc : st.docsFile = some doc)
    (hlibs : ∀ lib ∈ STANDARD_LIBRARIES, st.libFiles lib ≠ none) :
    (fetch_rf_documentation false net t2
        (fetch_rf_documentation false net t1 st).state).attempted = [] ∧
    (fetch_rf_documentation false net t1 st).state.indexFile
      = some (
          { version := RF_VERSION, parsed_at := t1,
            total_sections := (getSections doc).length, sections := getSections doc }) ∧
    (fetch_rf_documentation false net t2
        (fetch_rf_documentation false net t1 st).state).state.indexFile
      = some (
          { version := RF_VERSION, parsed_at := t2,
            total_sections := (getSections doc).length, sections := getSections doc }) ∧
    kwEquivApartTimestamp
      (fetch_rf_documentation false net t1 st).state.keywordsIndex
      (fetch_rf_documentation false net t2
        (fetch_rf_documentation false net t1 st).state).state.keywordsIndex := by
  rw [fetch_cached net t1 st doc hdoc hlibs]
  by_cases hK : (cachedKeywords st.libFiles STANDARD_LIBRARIES).isEmpty
  · rw [if_pos hK]
    dsimp only
    rw [fetch_cached net t2
      ({ docsFile := st.docsFile, libFiles := st.libFiles,
         indexFile := some (
           { version := RF_VERSION, parsed_at := t1,
             total_sections := (getSections doc).length, sections := getSections doc }),
         keywordsIndex := st.keywordsIndex }) doc hdoc hlibs]
    dsimp only
    rw [if_pos hK]
    exact ⟨rfl, rfl, rfl, kwEquivApartTimestamp_refl _⟩
  · rw [if_neg hK]
    dsimp only
    rw [fetch_cached net t2
      ({ docsFile := st.docsFile, libFiles := st.libFiles,
         indexFile := some (
           { version := RF_VERSION, parsed_at := t1,
             total_sections := (getSections doc).length, sections := getSections doc }),
         keywordsIndex := some (
           { version := RF_VERSION, parsed_at := t1,
             total_libraries := (cachedKeywords st.libFiles STANDARD_LIBRARIES).length,
             total_keywords :=
               ((cachedKeywords st.libFiles STANDARD_LIBRARIES).map
                 (fun p => p.2.length)).sum,
             libraries := cachedKeywords st.libFiles STANDARD_LIBRARIES }) })
      doc hdoc hlibs]
    dsimp only
    rw [if_neg hK]
    refine ⟨rfl, rfl, rfl, ?_⟩
    simp [kwEquivApartTimestamp]

/-- Witness for C8 on a fully cached concrete state: no fetch is
attempted on the second rebuild. -/
theorem c8_idempotent_rebuild_witness :
    (fetch_rf_documentation false deadNet ("t2")
        (fetch_rf_documentation false deadNet ("t1") c8State).state).attempted = [] :=
  (c8_idempotent_rebuild deadNet c8State ("t1") ("t2") [] rfl
    (fun lib _ => by simp [c8State])).1



/-! ### Structure of the library loop accumulator (C3, C9) -/

theorem alookup_append {B : Type} (k : String) :
    forall (l1 l2 : List (String × B)),
      alookup k (l1 ++ l2)
        = match alookup k l1 with
          | some v => some v
          | none => alookup k l2
  | [], l2 => by simp [alookup]
  | (a, b) :: tl, l2 => by
    by_cases ha : a = k
    · simp [alookup, ha]
    · simp only [List.cons_append, alookup, if_neg ha]
      exact alookup_append k tl l2

theorem alookup_append_left {B : Type} {k : String} {l1 : List (String × B)}
    {v : B} (l2 : List (String × B)) (h : alookup k l1 = some v) :
    alookup k (l1 ++ l2) = some v := by
  rw [alookup_append, h]

theorem alookup_append_none {B : Type} {k : String} {l1 : List (String × B)}
    (l2 : List (String × B)) (h : alookup k l1 = none) :
    alookup k (l1 ++ l2) = alookup k l2 := by
  rw [alookup_append, h]

theorem alookup_append_single_ne {B : Type} {k a : String} (h : a ≠ k) (b : B)
    (l : List (String × B)) :
    alookup k (l ++ [(a, b)]) = alookup k l := by
  rw [alookup_append]
  rcases hl : alookup k l with _ | v
  · dsimp only
    simp [alookup, h]
  · rfl

/-- One loop iteration only ever appends to the report and keyword
accumulators: it leaves them unchanged, appends one success entry together
with its keywords, or appends one failure entry. -/
theorem processLibrary_acc (f : Bool) (net : Network) (st : ServerState)
    (acc : LibAcc) (lib : String) :
    ((processLibrary f net st acc lib).2.libraries = acc.libraries ∧
     (processLibrary f net st acc lib).2.all_keywords = acc.all_keywords) ∨
    (∃ kws, (processLibrary f net st acc lib).2.libraries
        = acc.libraries ++ [(lib, { success := true, total_keywords := kws.length })] ∧
      (processLibrary f net st acc lib).2.all_keywords
        = acc.all_keywords ++ [(lib, kws)]) ∨
    ((processLibrary f net st acc lib).2.libraries
        = acc.libraries ++ [(lib, { success := false, total_keywords := 0 })] ∧
     (processLibrary f net st acc lib).2.all_keywords = acc.all_keywords) := by
  simp only [processLibrary]
  repeat' split
  all_goals
    first
      | exact Or.inl ⟨rfl, rfl⟩
      | exact Or.inr (Or.inr ⟨rfl, rfl⟩)
      | exact Or.inr (Or.inl ⟨_, rfl, rfl⟩)

/-- One loop iteration never touches the primary document, the Section
Index or the Keyword Index on disk. -/
theorem processLibrary_state (f : Bool) (net : Network) (st : ServerState)
    (acc : LibAcc) (lib : String) :
    (processLibrary f net st acc lib).1.keywordsIndex = st.keywordsIndex := by
  simp only [processLibrary]
  repeat' split
  all_goals rfl

/-- The accumulator coming out of one loop iteration depends on the prior
state only through its library cache slots. -/
theorem processLibrary_congr (f : Bool) (net : Network) (acc : LibAcc) (lib : String)
    (st1 st2 : ServerState) (hfiles : st1.libFiles = st2.libFiles) :
    (processLibrary f net st1 acc lib).2 = (processLibrary f net st2 acc lib).2 ∧
    (processLibrary f net st1 acc lib).1.libFiles
      = (processLibrary f net st2 acc lib).1.libFiles := by
  simp only [processLibrary, hfiles]
  by_cases hc : (f = true ∨ st2.libFiles lib = none)
  · rw [if_pos hc, if_pos hc]
    rcases hnet : net.library lib with e | content
    · dsimp only
      rw [hfiles]
      rcases hf : st2.libFiles lib with _ | c
      · exact ⟨rfl, hfiles⟩
      · dsimp only
        rcases hp : parseLibraryKeywords lib c with kws | e2 <;> exact ⟨rfl, hfiles⟩
    · dsimp only
      rw [show (if lib = lib then some content else st2.libFiles lib) = some content
        from if_pos rfl]
      dsimp only
      rcases hp : parseLibraryKeywords lib content with kws | e2 <;> exact ⟨rfl, rfl⟩
  · rw [if_neg hc, if_neg hc]
    dsimp only
    rw [hfiles]
    rcases hf : st2.libFiles lib with _ | c
    · exact ⟨rfl, hfiles⟩
    · dsimp only
      rcases hp : parseLibraryKeywords lib c with kws | e2 <;> exact ⟨rfl, hfiles⟩


/-- The library loop never touches the Keyword Index artifact on disk. -/
theorem processLibraries_preserves (f : Bool) (net : Network) :
    ∀ (libs : List String) (st : ServerState) (acc : LibAcc),
      (processLibraries f net libs st acc).1.keywordsIndex = st.keywordsIndex
  | [], _, _ => rfl
  | lib :: rest, st, acc => by
    rw [processLibraries]
    rw [processLibraries_preserves f net rest (processLibrary f net st acc lib).1
      (processLibrary f net st acc lib).2]
    exact processLibrary_state f net st acc lib

/-- The loop accumulator depends on the prior state only through its
library cache slots. -/
theorem processLibraries_congr (f : Bool) (net : Network) :
    ∀ (libs : List String) (st1 st2 : ServerState) (acc : LibAcc),
      st1.libFiles = st2.libFiles →
      (processLibraries f net libs st1 acc).2 = (processLibraries f net libs st2 acc).2
  | [], _, _, _, _ => rfl
  | lib :: rest, st1, st2, acc, h => by
    rw [processLibraries, processLibraries]
    obtain ⟨h2, hf⟩ := processLibrary_congr f net acc lib st1 st2 h
    rw [h2]
    exact processLibraries_congr f net rest (processLibrary f net st1 acc lib).1
      (processLibrary f net st2 acc lib).1 (processLibrary f net st2 acc lib).2 hf

/-- The loop only ever appends to the report and keyword accumulators. -/
theorem processLibraries_acc_prefix (f : Bool) (net : Network) :
    ∀ (libs : List String) (st : ServerState) (acc : LibAcc),
      ∃ tl ta,
        (processLibraries f net libs st acc).2.libraries = acc.libraries ++ tl ∧
        (processLibraries f net libs st acc).2.all_keywords = acc.all_keywords ++ ta
  | [], st, acc => by
    refine ⟨[], [], ?_, ?_⟩ <;> simp [processLibraries]
  | lib :: rest, st, acc => by
    rw [processLibraries]
    obtain ⟨tl, ta, h1, h2⟩ := processLibraries_acc_prefix f net rest
      (processLibrary f net st acc lib).1 (processLibrary f net st acc lib).2
    rcases processLibrary_acc f net st acc lib with ⟨e1, e2⟩ | ⟨kws, e1, e2⟩ | ⟨e1, e2⟩
    · exact ⟨tl, ta, by rw [h1, e1], by rw [h2, e2]⟩
    · exact ⟨(lib, { success := true, total_keywords := kws.length }) :: tl,
        (lib, kws) :: ta,
        by rw [h1, e1, List.append_assoc]; rfl,
        by rw [h2, e2, List.append_assoc]; rfl⟩
    · exact ⟨(lib, { success := false, total_keywords := 0 }) :: tl, ta,
        by rw [h1, e1, List.append_assoc]; rfl,
        by rw [h2, e2]⟩

/-- Every library keyed in the accumulated keyword mapping coming out of
the loop carries a matching success entry in the report, provided the
processed names are distinct and fresh for the incoming accumulator. -/
theorem processLibraries_success_keys (f : Bool) (net : Network) :
    ∀ (libs : List String) (st : ServerState) (acc : LibAcc),
      libs.Nodup →
      (∀ lib ∈ libs, alookup lib acc.libraries = none ∧
        alookup lib acc.all_keywords = none) →
      (∀ k kws, alookup k acc.all_keywords = some kws →
        alookup k acc.libraries = some { success := true, total_keywords := kws.length }) →
      ∀ k kws,
        alookup k (processLibraries f net libs st acc).2.all_keywords = some kws →
        alookup k (processLibraries f net libs st acc).2.libraries
          = some { success := true, total_keywords := kws.length }
  | [], st, acc, _, _, hinv => fun k kws h => hinv k kws h
  | lib0 :: rest, st, acc, hnd, hfresh, hinv => by
    rw [processLibraries]
    rcases List.nodup_cons.mp hnd with ⟨hnotin, hndr⟩
    rcases processLibrary_acc f net st acc lib0 with ⟨e1, e2⟩ | ⟨kws0, e1, e2⟩ | ⟨e1, e2⟩
    · exact processLibraries_success_keys f net rest _ _ hndr
        (fun lib hm => by
          rw [e1, e2]; exact hfresh lib (List.mem_cons_of_mem _ hm))
        (fun k kws h => by
          rw [e1]; exact hinv k kws (by rw [e2] at h; exact h))
    · refine processLibraries_success_keys f net rest _ _ hndr ?_ ?_
      · intro lib hm
        have hne0 : lib0 ≠ lib := fun h => hnotin (h ▸ hm)
        have hf := hfresh lib (List.mem_cons_of_mem _ hm)
        constructor
        · rw [e1, alookup_append_none _ hf.1]
          simp [alookup, hne0]
        · rw [e2, alookup_append_none _ hf.2]
          simp [alookup, hne0]
      · intro k kws h
        rw [e2, alookup_append] at h
        rw [e1]
        rcases hacc : alookup k acc.all_keywords with _ | v
        · rw [hacc] at h
          dsimp only at h
          by_cases hkk : lib0 = k
          · subst hkk
            simp only [alookup, if_pos rfl] at h
            have hk2 : kws0 = kws := Option.some.inj h
            subst hk2
            have hf0 := hfresh lib0 (List.mem_cons_self _ _)
            rw [alookup_append_none _ hf0.1]
            simp [alookup]
          · simp [alookup, hkk] at h
        · rw [hacc] at h
          dsimp only at h
          have hv : v = kws := Option.some.inj h
          subst hv
          exact alookup_append_left _ (hinv k v hacc)
    · refine processLibraries_success_keys f net rest _ _ hndr ?_ ?_
      · intro lib hm
        have hne0 : lib0 ≠ lib := fun h => hnotin (h ▸ hm)
        have hf := hfresh lib (List.mem_cons_of_mem _ hm)
        constructor
        · rw [e1, alookup_append_none _ hf.1]
          simp [alookup, hne0]
        · rw [e2]
          exact hf.2
      · intro k kws h
        rw [e2] at h
        rw [e1]
        exact alookup_append_left _ (hinv k kws h)


/-! ### The library loop under a partial failure (C3) -/

/-- A loop iteration on a cached library whose document parses cleanly:
no download, one success entry, keywords folded in. -/
theorem processLibrary_cached_ok (net : Network) (st : ServerState) (acc : LibAcc)
    (lib : String) (c : List Char) (kws : List (String × KeywordRecord))
    (hc : st.libFiles lib = some c) (hp : parseLibraryKeywords lib c = LibParse.ok kws) :
    processLibrary false net st acc lib
      = (st, { acc with
          libraries := acc.libraries
            ++ [(lib, { success := true, total_keywords := kws.length })],
          all_keywords := acc.all_keywords ++ [(lib, kws)],
          total_keywords := acc.total_keywords + kws.length }) := by
  simp only [processLibrary]
  rw [if_neg (by simp [hc])]
  dsimp only
  rw [hc]
  dsimp only
  rw [hp]

/-- A loop iteration on a library with no cached document whose download
fails: the attempt is recorded and nothing else changes. -/
theorem processLibrary_fail_missing (net : Network) (st : ServerState) (acc : LibAcc)
    (lib errm : String) (hc : st.libFiles lib = none)
    (hnet : net.library lib = Except.error errm) :
    processLibrary false net st acc lib
      = (st, { acc with attempted := acc.attempted ++ [lib] }) := by
  simp only [processLibrary]
  rw [if_pos (Or.inr hc)]
  rw [hnet]
  dsimp only
  rw [hc]

/-- The loop under one failing library: when every other listed library is
cached and parses cleanly while the failing one has no cached copy and a
dead download, the failed name is keyed in neither the report nor the
keyword accumulator, and every other listed library lands in both. -/
theorem processLibraries_partial (net : Network) (bad errm : String)
    (hbadNet : net.library bad = Except.error errm) :
    ∀ (libs : List String) (st : ServerState) (acc : LibAcc),
      libs.Nodup →
      st.libFiles bad = none →
      (∀ lib ∈ libs, lib ≠ bad →
        ∃ c kws, st.libFiles lib = some c ∧ parseLibraryKeywords lib c = LibParse.ok kws) →
      alookup bad (processLibraries false net libs st acc).2.libraries
          = alookup bad acc.libraries ∧
      alookup bad (processLibraries false net libs st acc).2.all_keywords
          = alookup bad acc.all_keywords ∧
      ∀ lib ∈ libs, lib ≠ bad → ∀ c kws,
        st.libFiles lib = some c → parseLibraryKeywords lib c = LibParse.ok kws →
        (alookup lib acc.libraries = none →
          alookup lib (processLibraries false net libs st acc).2.libraries
            = some { success := true, total_keywords := kws.length }) ∧
        (alookup lib acc.all_keywords = none →
          alookup lib (processLibraries false net libs st acc).2.all_keywords = some kws)
  | [], st, acc, _, _, _ => by
    refine ⟨rfl, rfl, ?_⟩
    intro lib hmem
    simp at hmem
  | lib0 :: rest, st, acc, hnd, hbadFile, hgood => by
    rw [processLibraries]
    rcases List.nodup_cons.mp hnd with ⟨hnotin, hndr⟩
    by_cases hb : lib0 = bad
    · subst hb
      rw [processLibrary_fail_missing net st acc lib0 errm hbadFile hbadNet]
      dsimp only
      obtain ⟨ih1, ih2, ih3⟩ := processLibraries_partial net lib0 errm hbadNet rest st
        { acc with attempted := acc.attempted ++ [lib0] } hndr hbadFile
        (fun lib hm hne => hgood lib (List.mem_cons_of_mem _ hm) hne)
      refine ⟨ih1, ih2, ?_⟩
      intro lib hmem hne c kws hc hp
      have hmem2 : lib ∈ rest := by
        rcases List.mem_cons.mp hmem with h | h
        · exact absurd h hne
        · exact h
      exact ih3 lib hmem2 hne c kws hc hp
    · obtain ⟨c0, kws0, hc0, hp0⟩ := hgood lib0 (List.mem_cons_self _ _) hb
      rw [processLibrary_cached_ok net st acc lib0 c0 kws0 hc0 hp0]
      dsimp only
      obtain ⟨ih1, ih2, ih3⟩ := processLibraries_partial net bad errm hbadNet rest st
        { acc with
          libraries := acc.libraries
            ++ [(lib0, { success := true, total_keywords := kws0.length })],
          all_keywords := acc.all_keywords ++ [(lib0, kws0)],
          total_keywords := acc.total_keywords + kws0.length } hndr hbadFile
        (fun lib hm hne => hgood lib (List.mem_cons_of_mem _ hm) hne)
      refine ⟨?_, ?_, ?_⟩
      · rw [ih1]
        exact alookup_append_single_ne hb _ _
      · rw [ih2]
        exact alookup_append_single_ne hb _ _
      · intro lib hmem hne c kws hc hp
        rcases List.mem_cons.mp hmem with heq | hmem2
        · subst heq
          rw [hc0] at hc
          have hcc : c0 = c := Option.some.inj hc
          subst hcc
          rw [hp0] at hp
          have hkk : kws0 = kws := by
            cases hp
            rfl
          subst hkk
          obtain ⟨tl, ta, e1, e2⟩ := processLibraries_acc_prefix false net rest st
            { acc with
              libraries := acc.libraries
                ++ [(lib, { success := true, total_keywords := kws0.length })],
              all_keywords := acc.all_keywords ++ [(lib, kws0)],
              total_keywords := acc.total_keywords + kws0.length }
          constructor
          · intro hfresh
            rw [e1]
            dsimp only
            rw [List.append_assoc, alookup_append_none _ hfresh]
            simp [alookup]
          · intro hfresh
            rw [e2]
            dsimp only
            rw [List.append_assoc, alookup_append_none _ hfresh]
            simp [alookup]
        · have hne0 : lib0 ≠ lib := fun h => hnotin (h ▸ hmem2)
          have h1 := ih3 lib hmem2 hne c kws hc hp
          constructor
          · intro hfresh
            refine h1.1 ?_
            rw [alookup_append_none _ hfresh]
            simp [alookup, hne0]
          · intro hfresh
            refine h1.2 ?_
            rw [alookup_append_none _ hfresh]
            simp [alookup, hne0]



/-- The whole library loop of a rebuild in which exactly one configured
library fails: the failed name is keyed in neither the report nor the
keyword accumulator, at least one library lands in the keyword
accumulator, and every other configured library lands in both. -/
theorem c3_fold_block (net : Network) (stM : ServerState) (bad errm : String)
    (hbadNet : net.library bad = Except.error errm)
    (hbadFile : stM.libFiles bad = none)
    (hgood : ∀ lib ∈ STANDARD_LIBRARIES, lib ≠ bad →
      ∃ c kws, stM.libFiles lib = some c ∧ parseLibraryKeywords lib c = LibParse.ok kws)
    (fd att : List String) :
    alookup bad (processLibraries false net STANDARD_LIBRARIES stM
        { files_downloaded := fd, libraries := [], all_keywords := [],
          total_keywords := 0, attempted := att }).2.libraries = none ∧
    alookup bad (processLibraries false net STANDARD_LIBRARIES stM
        { files_downloaded := fd, libraries := [], all_keywords := [],
          total_keywords := 0, attempted := att }).2.all_keywords = none ∧
    (processLibraries false net STANDARD_LIBRARIES stM
        { files_downloaded := fd, libraries := [], all_keywords := [],
          total_keywords := 0, attempted := att }).2.all_keywords.isEmpty = false ∧
    ∀ lib ∈ STANDARD_LIBRARIES, lib ≠ bad → ∀ c kws,
      stM.libFiles lib = some c → parseLibraryKeywords lib c = LibParse.ok kws →
      alookup lib (processLibraries false net STANDARD_LIBRARIES stM
        { files_downloaded := fd, libraries := [], all_keywords := [],
          total_keywords := 0, attempted := att }).2.libraries
          = some { success := true, total_keywords := kws.length } ∧
      alookup lib (processLibraries false net STANDARD_LIBRARIES stM
        { files_downloaded := fd, libraries := [], all_keywords := [],
          total_keywords := 0, attempted := att }).2.all_keywords = some kws := by
  obtain ⟨h1, h2, h3⟩ := processLibraries_partial net bad errm hbadNet STANDARD_LIBRARIES
    stM { files_downloaded := fd, libraries := [], all_keywords := [],
          total_keywords := 0, attempted := att }
    (by decide) hbadFile hgood
  refine ⟨h1.trans rfl, h2.trans rfl, ?_, ?_⟩
  · have hex : ∃ L ∈ STANDARD_LIBRARIES, L ≠ bad := by
      by_cases hB : bad = ("BuiltIn")
      · refine ⟨("Collections"), by decide, ?_⟩
        rw [hB]
        decide
      · exact ⟨("BuiltIn"), by decide, fun h => hB h.symm⟩
    obtain ⟨L, hLmem, hLne⟩ := hex
    obtain ⟨c0, kws0, hc0, hp0⟩ := hgood L hLmem hLne
    have hk := (h3 L hLmem hLne c0 kws0 hc0 hp0).2 rfl
    rcases hE : (processLibraries false net STANDARD_LIBRARIES stM
        { files_downloaded := fd, libraries := [], all_keywords := [],
          total_keywords := 0, attempted := att }).2.all_keywords with _ | ⟨p, tl2⟩
    · rw [hE] at hk
      simp [alookup] at hk
    · rfl
  · intro lib hmem hne c kws hc hp
    exact ⟨(h3 lib hmem hne c kws hc hp).1 rfl, (h3 lib hmem hne c kws hc hp).2 rfl⟩

/-! ### The primary-document stages of a rebuild (C9) -/

/-- The primary step's report depends on the prior state only through the
primary cache slot, and it never touches the library slots or the Keyword
Index. -/
theorem fetchPrimary_congr (f : Bool) (net : Network) (st1 st2 : ServerState)
    (hdoc : st1.docsFile = st2.docsFile) :
    (fetchPrimary f net st1).2 = (fetchPrimary f net st2).2 ∧
    (fetchPrimary f net st1).1.docsFile = (fetchPrimary f net st2).1.docsFile ∧
    (fetchPrimary f net st1).1.libFiles = st1.libFiles ∧
    (fetchPrimary f net st2).1.libFiles = st2.libFiles ∧
    (fetchPrimary f net st1).1.keywordsIndex = st1.keywordsIndex ∧
    (fetchPrimary f net st2).1.keywordsIndex = st2.keywordsIndex := by
  simp only [fetchPrimary, hdoc]
  by_cases hc : (f = true ∨ st2.docsFile = none)
  · rw [if_pos hc, if_pos hc]
    rcases net.primary with e | events
    · exact ⟨rfl, hdoc, rfl, rfl, rfl, rfl⟩
    · exact ⟨rfl, rfl, rfl, rfl, rfl, rfl⟩
  · rw [if_neg hc, if_neg hc]
    exact ⟨rfl, hdoc, rfl, rfl, rfl, rfl⟩

/-- The indexing step's outcome flag depends on the prior state only
through the primary cache slot, and it never touches the library slots or
the Keyword Index. -/
theorem indexPrimary_congr (now : String) (st1 st2 : ServerState)
    (hdoc : st1.docsFile = st2.docsFile) :
    (indexPrimary now st1).2 = (indexPrimary now st2).2 ∧
    (indexPrimary now st1).1.libFiles = st1.libFiles ∧
    (indexPrimary now st2).1.libFiles = st2.libFiles ∧
    (indexPrimary now st1).1.keywordsIndex = st1.keywordsIndex ∧
    (indexPrimary now st2).1.keywordsIndex = st2.keywordsIndex := by
  simp only [indexPrimary, hdoc]
  rcases st2.docsFile with _ | d <;> exact ⟨rfl, rfl, rfl, rfl, rfl⟩


/-- C9 (amended): the Keyword Index write depends on the current run
alone.  Two states agreeing on the raw document caches produce identical
rebuild reports and fetch attempts; when the index is written it is
written identically — wholesale from the run's results, with every keyed
library carrying a matching success entry in the report — and no entry of
a prior artifact survives; but when no library parses successfully the
artifact is not overwritten and each prior artifact survives untouched. -/
theorem c9_wholesale_overwrite (f : Bool) (net : Network) (now : String)
    (st1 st2 : ServerState) (hdoc : st1.docsFile = st2.docsFile)
    (hfiles : st1.libFiles = st2.libFiles) :
    (fetch_rf_documentation f net now st1).results
        = (fetch_rf_documentation f net now st2).results ∧
    (fetch_rf_documentation f net now st1).attempted
        = (fetch_rf_documentation f net now st2).attempted ∧
    ((fetch_rf_documentation f net now st1).results.keywords_index_written = true →
      (fetch_rf_documentation f net now st1).state.keywordsIndex
        = (fetch_rf_documentation f net now st2).state.keywordsIndex) ∧
    ((fetch_rf_documentation f net now st1).results.keywords_index_written = false →
      (fetch_rf_documentation f net now st1).state.keywordsIndex = st1.keywordsIndex ∧
      (fetch_rf_documentation f net now st2).state.keywordsIndex = st2.keywordsIndex) ∧
    (∀ artifact,
      (fetch_rf_documentation f net now st1).state.keywordsIndex = some artifact →
      (fetch_rf_documentation f net now st1).results.keywords_index_written = true →
      ∀ lib kws, alookup lib artifact.libraries = some kws →
        alookup lib (fetch_rf_documentation f net now st1).results.libraries
          = some { success := true, total_keywords := kws.length }) := by
  obtain ⟨hp2, hpd, hpf1, hpf2, hpk1, hpk2⟩ := fetchPrimary_congr f net st1 st2 hdoc
  obtain ⟨hi2, hif1, hif2, hik1, hik2⟩ :=
    indexPrimary_congr now (fetchPrimary f net st1).1 (fetchPrimary f net st2).1 hpd
  have hff : (indexPrimary now (fetchPrimary f net st1).1).1.libFiles
      = (indexPrimary now (fetchPrimary f net st2).1).1.libFiles := by
    rw [hif1, hif2, hpf1, hpf2, hfiles]
  simp only [fetch_rf_documentation]
  rw [hp2, hi2]
  have hacc := processLibraries_congr f net STANDARD_LIBRARIES
    (indexPrimary now (fetchPrimary f net st1).1).1
    (indexPrimary now (fetchPrimary f net st2).1).1
    { files_downloaded := (fetchPrimary f net st2).2.2.1, libraries := [],
      all_keywords := [], total_keywords := 0,
      attempted := (fetchPrimary f net st2).2.2.2 } hff
  rw [hacc]
  refine ⟨rfl, rfl, ?_, ?_, ?_⟩
  · intro h
    have hne : (processLibraries f net STANDARD_LIBRARIES
        (indexPrimary now (fetchPrimary f net st2).1).1
        { files_downloaded := (fetchPrimary f net st2).2.2.1, libraries := [],
          all_keywords := [], total_keywords := 0,
          attempted := (fetchPrimary f net st2).2.2.2 }).2.all_keywords.isEmpty
        = false := by
      simpa using h
    simp only [writeKwIndex]
    rw [if_neg (by simp [hne]), if_neg (by simp [hne])]
  · intro h
    have hpos : (processLibraries f net STANDARD_LIBRARIES
        (indexPrimary now (fetchPrimary f net st2).1).1
        { files_downloaded := (fetchPrimary f net st2).2.2.1, libraries := [],
          all_keywords := [], total_keywords := 0,
          attempted := (fetchPrimary f net st2).2.2.2 }).2.all_keywords.isEmpty
        = true := by
      simpa using h
    simp only [writeKwIndex]
    rw [if_pos hpos, if_pos hpos]
    constructor
    · rw [processLibraries_preserves f net STANDARD_LIBRARIES
        (indexPrimary now (fetchPrimary f net st1).1).1
        { files_downloaded := (fetchPrimary f net st2).2.2.1, libraries := [],
          all_keywords := [], total_keywords := 0,
          attempted := (fetchPrimary f net st2).2.2.2 }, hik1]
      exact hpk1
    · rw [processLibraries_preserves f net STANDARD_LIBRARIES
        (indexPrimary now (fetchPrimary f net st2).1).1
        { files_downloaded := (fetchPrimary f net st2).2.2.1, libraries := [],
          all_keywords := [], total_keywords := 0,
          attempted := (fetchPrimary f net st2).2.2.2 }, hik2]
      exact hpk2
  · intro artifact hsome hw lib kws hl
    have hne : (processLibraries f net STANDARD_LIBRARIES
        (indexPrimary now (fetchPrimary f net st2).1).1
        { files_downloaded := (fetchPrimary f net st2).2.2.1, libraries := [],
          all_keywords := [], total_keywords := 0,
          attempted := (fetchPrimary f net st2).2.2.2 }).2.all_keywords.isEmpty
        = false := by
      simpa using hw
    simp only [writeKwIndex] at hsome
    rw [if_neg (by simp [hne])] at hsome
    have hart := Option.some.inj hsome
    subst hart
    exact processLibraries_success_keys f net STANDARD_LIBRARIES
      (indexPrimary now (fetchPrimary f net st2).1).1
      { files_downloaded := (fetchPrimary f net st2).2.2.1, libraries := [],
        all_keywords := [], total_keywords := 0,
        attempted := (fetchPrimary f net st2).2.2.2 }
      (by decide) (fun lib2 _ => ⟨rfl, rfl⟩)
      (fun k kws2 hcon => by simp [alookup] at hcon) lib kws hl

/-- Witness for C9 on concrete states differing only in a prior Keyword
Index artifact: a rebuild over a live network writes the same artifact
from both. -/
theorem c9_wholesale_overwrite_witness :
    (fetch_rf_documentation false c9GoodNet ("t1") c9State).state.keywordsIndex
      = (fetch_rf_documentation false c9GoodNet ("t1") c9NoPrior).state.keywordsIndex :=
  (c9_wholesale_overwrite false c9GoodNet ("t1") c9State c9NoPrior rfl rfl).2.2.1
    (by decide)


/-- C3 (amended): in a rebuild whose primary document is available (cached
or freshly fetched) and in which exactly one configured library has no
cached copy and a failing download while every other configured library's
document is cached and parses cleanly, the report has overall success, the
failed library is keyed in the report not at all (there is no
`success = false` entry for it), the Keyword Index is written, the failed
library is absent from it, and every other configured library carries a
success entry with its keyword count and its full keyword mapping in the
written artifact; the failure aborts nothing. -/
theorem c3_partial_failure_rebuild (net : Network) (now : String) (st : ServerState)
    (doc : List HtmlEvent) (bad errm : String)
    (hprimary : st.docsFile = some doc ∨ (st.docsFile = none ∧ net.primary = Except.ok doc))
    (_hbadMem : bad ∈ STANDARD_LIBRARIES)
    (hbadFile : st.libFiles bad = none)
    (hbadNet : net.library bad = Except.error errm)
    (hgood : ∀ lib ∈ STANDARD_LIBRARIES, lib ≠ bad →
      ∃ c kws, st.libFiles lib = some c ∧ parseLibraryKeywords lib c = LibParse.ok kws) :
    (fetch_rf_documentation false net now st).results.success = true ∧
    alookup bad (fetch_rf_documentation false net now st).results.libraries = none ∧
    (fetch_rf_documentation false net now st).results.keywords_index_written = true ∧
    ∃ artifact,
      (fetch_rf_documentation false net now st).state.keywordsIndex = some artifact ∧
      alookup bad artifact.libraries = none ∧
      ∀ lib ∈ STANDARD_LIBRARIES, lib ≠ bad → ∀ c kws,
        st.libFiles lib = some c → parseLibraryKeywords lib c = LibParse.ok kws →
        alookup lib (fetch_rf_documentation false net now st).results.libraries
          = some { success := true, total_keywords := kws.length } ∧
        alookup lib artifact.libraries = some kws := by
  rcases hprimary with hdoc | ⟨hnone, hok⟩
  · simp only [fetch_rf_documentation, fetchPrimary, indexPrimary, writeKwIndex]
    rw [if_neg (by simp [hdoc] : ¬ (false = true ∨ st.docsFile = none))]
    dsimp only
    rw [hdoc]
    dsimp only
    obtain ⟨k1, k2, k3, k4⟩ := c3_fold_block net
      ({ docsFile := some doc, libFiles := st.libFiles,
         indexFile := some (
           { version := RF_VERSION, parsed_at := now,
             total_sections := (getSections doc).length, sections := getSections doc }),
         keywordsIndex := st.keywordsIndex }) bad errm hbadNet hbadFile hgood [] []
    generalize hP : (processLibraries false net STANDARD_LIBRARIES
      ({ docsFile := some doc, libFiles := st.libFiles,
         indexFile := some (
           { version := RF_VERSION, parsed_at := now,
             total_sections := (getSections doc).length, sections := getSections doc }),
         keywordsIndex := st.keywordsIndex })
      { files_downloaded := [], libraries := [], all_keywords := [],
        total_keywords := 0, attempted := [] }) = P
    rw [hP] at k1 k2 k3 k4
    refine ⟨rfl, k1, ?_, ?_⟩
    · rw [k3]
      rfl
    · refine ⟨
        { version := RF_VERSION, parsed_at := now,
          total_libraries := P.2.all_keywords.length,
          total_keywords := P.2.total_keywords,
          libraries := P.2.all_keywords }, ?_, ?_, ?_⟩
      · rw [if_neg (by simp [k3])]
      · exact k2
      · intro lib hmem hne c kws hc hp
        exact k4 lib hmem hne c kws hc hp
  · simp only [fetch_rf_documentation, fetchPrimary, indexPrimary, writeKwIndex]
    rw [if_pos (Or.inr hnone)]
    rw [hok]
    dsimp only
    obtain ⟨k1, k2, k3, k4⟩ := c3_fold_block net
      ({ docsFile := some doc, libFiles := st.libFiles,
         indexFile := some (
           { version := RF_VERSION, parsed_at := now,
             total_sections := (getSections doc).length, sections := getSections doc }),
         keywordsIndex := st.keywordsIndex }) bad errm hbadNet hbadFile hgood [("RobotFrameworkUserGuide.html")] [("user_guide")]
    generalize hP : (processLibraries false net STANDARD_LIBRARIES
      ({ docsFile := some doc, libFiles := st.libFiles,
         indexFile := some (
           { version := RF_VERSION, parsed_at := now,
             total_sections := (getSections doc).length, sections := getSections doc }),
         keywordsIndex := st.keywordsIndex })
      { files_downloaded := [("RobotFrameworkUserGuide.html")], libraries := [], all_keywords := [],
        total_keywords := 0, attempted := [("user_guide")] }) = P
    rw [hP] at k1 k2 k3 k4
    refine ⟨rfl, k1, ?_, ?_⟩
    · rw [k3]
      rfl
    · refine ⟨
        { version := RF_VERSION, parsed_at := now,
          total_libraries := P.2.all_keywords.length,
          total_keywords := P.2.total_keywords,
          libraries := P.2.all_keywords }, ?_, ?_, ?_⟩
      · rw [if_neg (by simp [k3])]
      · exact k2
      · intro lib hmem hne c kws hc hp
        exact k4 lib hmem hne c kws hc hp

/-- Witness for C3 on the concrete partial-failure state: every library
cached except `Telnet`, whose fetch 404s; the rebuild succeeds, reports no
`Telnet` entry and writes the Keyword Index. -/
theorem c3_partial_failure_rebuild_witness :
    (fetch_rf_documentation false deadNet ("t1") c3State).results.success = true ∧
    alookup ("Telnet")
      (fetch_rf_documentation false deadNet ("t1") c3State).results.libraries = none ∧
    (fetch_rf_documentation false deadNet ("t1") c3State).results.keywords_index_written
      = true :=
  have h := c3_partial_failure_rebuild deadNet ("t1") c3State [] ("Telnet")
    ("HTTP Error 404: Not Found") (Or.inl rfl) (by decide) (by decide) rfl
    (by
      intro lib hmem hne
      fin_cases hmem
      · exact ⟨tinyLibDoc ("BuiltIn"), tinyKws ("BuiltIn"), by decide, by decide⟩
      · exact ⟨tinyLibDoc ("Collections"), tinyKws ("Collections"), by decide, by decide⟩
      · exact ⟨tinyLibDoc ("DateTime"), tinyKws ("DateTime"), by decide, by decide⟩
      · exact ⟨tinyLibDoc ("OperatingSystem"), tinyKws ("OperatingSystem"),
          by decide, by decide⟩
      · exact ⟨tinyLibDoc ("Process"), tinyKws ("Process"), by decide, by decide⟩
      · exact ⟨tinyLibDoc ("Screenshot"), tinyKws ("Screenshot"), by decide, by decide⟩
      · exact ⟨tinyLibDoc ("String"), tinyKws ("String"), by decide, by decide⟩
      · exact absurd rfl hne
      · exact ⟨tinyLibDoc ("XML"), tinyKws ("XML"), by decide, by decide⟩)
  ⟨h.1, h.2.1, h.2.2.1⟩

end RF
